import Mathlib

/-!
Formal model of the social-networking backend's user-relationship and
profile-update logic, transcribed from the TypeScript sources
(`src/core/controller/userController.ts`, the `modules/user` and
`modules/auth` controllers and services, and the Cloudinary service).

The MongoDB `users` collection is modelled as a list of user records.
Mongoose writes (`doc.save()` after mutating a path, and
`Model.findByIdAndUpdate`) become pointwise record updates keyed on the
document id: `save` persists the paths the code assigned, so each save is
modelled as an update of exactly those fields.
-/

/-- A document of the `users` collection (`user.model.ts`).  The schema
paths are `email`, `full_name`, `username` (optional, unset when the
document never received one), `password`, `bio`, `profile_image`,
`cover_image`, `location`, and the three relation arrays. -/
structure UserRec where
  id : String
  email : String
  password : String
  full_name : String
  username : Option String
  bio : String
  profile_image : String
  cover_image : String
  location : String
  followers : List String
  following : List String
  connections : List String
deriving DecidableEq, Repr

/-- The `users` collection. -/
abbrev Store := List UserRec

def isHexDigit (c : Char) : Bool :=
  c.isDigit || ('a' ≤ c && c ≤ 'f') || ('A' ≤ c && c ≤ 'F')

/-- `mongoose.Types.ObjectId.isValid`: a 24-character hex string, or any
12-character string (read as 12 raw bytes). -/
def isValidObjectId (s : String) : Bool :=
  (s.length == 24 && s.data.all isHexDigit) || s.length == 12

/-- `Model.findById` / lookup by `_id`. -/
def findById (l : Store) (uid : String) : Option UserRec :=
  l.find? (fun u => u.id == uid)

/-- Pointwise update of the document with the given `_id` (mongoose
persists the assigned paths of the matching document). -/
def updateById (l : Store) (uid : String) (f : UserRec → UserRec) : Store :=
  l.map (fun u => if u.id == uid then f u else u)

/-- The error values thrown by the service layer, with the exact
`Error` messages used in the sources. -/
inductive SvcError where
  | invalidIdFormat
  | userNotFound
  | followNotFound
  | alreadyFollowing
  | notFollowing
  | castError
deriving DecidableEq, Repr

def SvcError.message : SvcError → String
  | .invalidIdFormat => "Invalid user ID format"
  | .userNotFound => "User not found"
  | .followNotFound => "User to follow not found"
  | .alreadyFollowing => "Already following this user"
  | .notFollowing => "You are not following this user"
  | .castError => "CastError"

/-- `UserService.findUserById` (`userController.ts`): throws
`Invalid user ID format` on a malformed id, otherwise `User.findById`. -/
def findUserById (l : Store) (userId : String) : Except SvcError (Option UserRec) :=
  if isValidObjectId userId then .ok (findById l userId) else .error .invalidIdFormat

/-- `UserService.findUserByUsername`: `User.findOne({ username })`. -/
def findUserByUsername (l : Store) (username : String) : Option UserRec :=
  l.find? (fun u => u.username == some username)

namespace CoreSvc

/-- `UserService.addFollowing` (`userController.ts` 308-331).  The second
check uses the `userToFollow` document fetched before the first save. -/
def addFollowing (l : Store) (userId followId : String) :
    Except SvcError Unit × Store :=
  match findUserById l userId with
  | .error e => (.error e, l)
  | .ok none => (.error .userNotFound, l)
  | .ok (some user) =>
    match findUserById l followId with
    | .error e => (.error e, l)
    | .ok none => (.error .followNotFound, l)
    | .ok (some userToFollow) =>
      if user.following.contains followId then
        (.error .alreadyFollowing, l)
      else
        -- user.following.push(followId); await user.save()
        if userToFollow.followers.contains userId then
          (.ok (), updateById l userId
            (fun u => { u with following := user.following ++ [followId] }))
        else
          -- userToFollow.followers.push(userId); await userToFollow.save()
          (.ok (), updateById
            (updateById l userId
              (fun u => { u with following := user.following ++ [followId] }))
            followId
            (fun u => { u with followers := userToFollow.followers ++ [userId] }))

/-- The first save of `removeFollowing`: persist the filtered
`following` list of the caller (`user.save()` after the reassignment). -/
def removeFollowingStep (l : Store) (userId : String)
    (following : List String) (unfollowId : String) : Store :=
  updateById l userId
    (fun u => { u with following := following.filter (fun i => !(i == unfollowId)) })

/-- `UserService.removeFollowing` (`userController.ts` 333-352).  The
`userToUnfollow` document is re-fetched after the first save. -/
def removeFollowing (l : Store) (userId unfollowId : String) :
    Except SvcError Unit × Store :=
  match findUserById l userId with
  | .error e => (.error e, l)
  | .ok none => (.error .userNotFound, l)
  | .ok (some user) =>
    if !(user.following.contains unfollowId) then
      (.error .notFollowing, l)
    else
      -- user.following = user.following.filter(id => id.toString() !== unfollowId)
      match findUserById (removeFollowingStep l userId user.following unfollowId) unfollowId with
      | .error e => (.error e, removeFollowingStep l userId user.following unfollowId)
      | .ok none => (.ok (), removeFollowingStep l userId user.following unfollowId)
      | .ok (some userToUnfollow) =>
        if userToUnfollow.followers.contains userId then
          (.ok (), updateById (removeFollowingStep l userId user.following unfollowId) unfollowId
            (fun u => { u with followers := userToUnfollow.followers.filter (fun i => !(i == userId)) }))
        else
          (.ok (), removeFollowingStep l userId user.following unfollowId)

end CoreSvc

/- Basic lemmas about the keyed-store operations. -/

theorem findUserById_ok_iff (l : Store) (uid : String) (u : UserRec) :
    findUserById l uid = .ok (some u) ↔
      isValidObjectId uid = true ∧ findById l uid = some u := by
  unfold findUserById
  by_cases h : isValidObjectId uid = true <;> simp [h]

theorem id_of_findById {l : Store} {uid : String} {u : UserRec}
    (h : findById l uid = some u) : u.id = uid := by
  have := List.find?_some h
  exact eq_of_beq this

theorem mem_of_findById {l : Store} {uid : String} {u : UserRec}
    (h : findById l uid = some u) : u ∈ l :=
  List.mem_of_find?_eq_some h

theorem find?_map_pred {α : Type} (l : List α) (p : α → Bool) (g : α → α)
    (hp : ∀ a, p (g a) = p a) : (l.map g).find? p = (l.find? p).map g := by
  induction l with
  | nil => rfl
  | cons a t ih =>
    simp only [List.map_cons, List.find?_cons, hp]
    cases h : p a
    · simpa [h] using ih
    · simp [h]

theorem findById_updateById (l : Store) (uid : String) (f : UserRec → UserRec)
    (hf : ∀ u, (f u).id = u.id) (x : String) :
    findById (updateById l uid f) x =
      (findById l x).map (fun u => if u.id == uid then f u else u) := by
  apply find?_map_pred
  intro a
  by_cases h : (a.id == uid) = true <;> simp [h, hf]

theorem contains_false_of_not_mem {l : List String} {x : String}
    (h : x ∉ l) : l.contains x = false := by
  cases hc : l.contains x
  · rfl
  · exact absurd (List.elem_iff.mp hc) h

theorem filter_append_singleton_self {xs : List String} {b : String}
    (h : b ∉ xs) : (xs ++ [b]).filter (fun i => !(i == b)) = xs := by
  rw [List.filter_append]
  have h1 : xs.filter (fun i => !(i == b)) = xs := by
    apply List.filter_eq_self.mpr
    intro x hx
    have : x ≠ b := fun e => h (e ▸ hx)
    simp [this]
  have h2 : [b].filter (fun i => !(i == b)) = [] := by simp
  rw [h1, h2, List.append_nil]

/-- On the non-error path, `addFollowing` performs the two path-writes of
the source (the second one skipped when the reverse edge already exists). -/
theorem addFollowing_ok_eq (l : Store) (a b : String) (ua ub : UserRec)
    (ha : findUserById l a = .ok (some ua))
    (hb : findUserById l b = .ok (some ub))
    (hnf : b ∉ ua.following) :
    CoreSvc.addFollowing l a b =
      (.ok (),
        if a ∈ ub.followers then
          updateById l a (fun u => { u with following := ua.following ++ [b] })
        else
          updateById
            (updateById l a (fun u => { u with following := ua.following ++ [b] }))
            b (fun u => { u with followers := ub.followers ++ [a] })) := by
  by_cases hfol : a ∈ ub.followers <;>
    simp [CoreSvc.addFollowing, ha, hb, hnf, hfol]

/-- C1: for existing users A, B with B not yet in A's following list (and
at most one stale A-entry in B's followers), `addFollowing(A,B)` succeeds,
calling it again fails with the `Already following this user` error, and
afterwards B's followers list contains A exactly once. -/
theorem claim_C1 (l : Store) (a b : String) (ua ub : UserRec)
    (ha : findUserById l a = .ok (some ua))
    (hb : findUserById l b = .ok (some ub))
    (hnf : b ∉ ua.following)
    (hcnt : ub.followers.count a ≤ 1) :
    (CoreSvc.addFollowing l a b).1 = .ok () ∧
    (CoreSvc.addFollowing (CoreSvc.addFollowing l a b).2 a b).1 =
      .error .alreadyFollowing ∧
    SvcError.message .alreadyFollowing = "Already following this user" ∧
    ∃ ub', findById (CoreSvc.addFollowing (CoreSvc.addFollowing l a b).2 a b).2 b
      = some ub' ∧ ub'.followers.count a = 1 := by
  obtain ⟨hva, hfa⟩ := (findUserById_ok_iff l a ua).mp ha
  obtain ⟨hvb, hfb⟩ := (findUserById_ok_iff l b ub).mp hb
  have hia : ua.id = a := id_of_findById hfa
  have hib : ub.id = b := id_of_findById hfb
  rw [addFollowing_ok_eq l a b ua ub ha hb hnf]
  refine ⟨rfl, ?_⟩
  by_cases hfol : a ∈ ub.followers
  · -- the reverse edge already existed: only A's following list is written
    rw [if_pos hfol]
    have hcnt1 : ub.followers.count a = 1 :=
      Nat.le_antisymm hcnt (List.count_pos_iff.mpr hfol)
    set f1 : UserRec → UserRec :=
      fun u => { u with following := ua.following ++ [b] } with hf1def
    have hf1 : ∀ u, (f1 u).id = u.id := fun u => rfl
    have hfind_a : findById (updateById l a f1) a = some (f1 ua) := by
      rw [findById_updateById l a f1 hf1 a, hfa]
      simp [hia]
    obtain ⟨vb, hvbe⟩ : ∃ v, (if ub.id == a then f1 ub else ub) = v := ⟨_, rfl⟩
    have hfind_b : findById (updateById l a f1) b = some vb := by
      rw [findById_updateById l a f1 hf1 b, hfb]
      simp only [Option.map_some']
      rw [hvbe]
    have hvbf : vb.followers = ub.followers := by
      rw [← hvbe]
      by_cases h : (ub.id == a) = true
      · rw [if_pos h]
      · rw [if_neg h]
    have hfua : findUserById (updateById l a f1) a = .ok (some (f1 ua)) :=
      (findUserById_ok_iff _ a _).mpr ⟨hva, hfind_a⟩
    have hfub : findUserById (updateById l a f1) b = .ok (some vb) :=
      (findUserById_ok_iff _ b _).mpr ⟨hvb, hfind_b⟩
    have hmemb : b ∈ (f1 ua).following := by
      show b ∈ ua.following ++ [b]
      simp
    refine ⟨?_, rfl, ?_⟩
    · simp [CoreSvc.addFollowing, hfua, hfub, hmemb]
    · exact ⟨vb, by simp [CoreSvc.addFollowing, hfua, hfub, hmemb, hfind_b],
        by rw [hvbf]; exact hcnt1⟩
  · rw [if_neg hfol]
    have hcnt0 : ub.followers.count a = 0 := List.count_eq_zero.mpr hfol
    set f1 : UserRec → UserRec :=
      fun u => { u with following := ua.following ++ [b] } with hf1def
    set f2 : UserRec → UserRec :=
      fun u => { u with followers := ub.followers ++ [a] } with hf2def
    have hf1 : ∀ u, (f1 u).id = u.id := fun u => rfl
    have hf2 : ∀ u, (f2 u).id = u.id := fun u => rfl
    set l2 := updateById (updateById l a f1) b f2 with hl2def
    obtain ⟨wa, hwae⟩ : ∃ w, (if (f1 ua).id == b then f2 (f1 ua) else f1 ua) = w :=
      ⟨_, rfl⟩
    have hfind_a : findById l2 a = some wa := by
      rw [hl2def, findById_updateById _ b f2 hf2 a,
        findById_updateById l a f1 hf1 a, hfa]
      simp only [Option.map_some']
      have hga : (if ua.id == a then f1 ua else ua) = f1 ua := by
        simp [hia]
      rw [hga, hwae]
    have hwaf : wa.following = ua.following ++ [b] := by
      rw [← hwae]
      by_cases h : ((f1 ua).id == b) = true
      · rw [if_pos h]
      · rw [if_neg h]
    obtain ⟨vb, hvbe⟩ : ∃ v, (if ub.id == a then f1 ub else ub) = v := ⟨_, rfl⟩
    have hvbid : vb.id = b := by
      rw [← hvbe]
      by_cases h : (ub.id == a) = true
      · rw [if_pos h]; exact hib
      · rw [if_neg h]; exact hib
    have hfind_b : findById l2 b = some (f2 vb) := by
      rw [hl2def, findById_updateById _ b f2 hf2 b,
        findById_updateById l a f1 hf1 b, hfb]
      simp only [Option.map_some']
      rw [hvbe]
      have : (vb.id == b) = true := by rw [hvbid]; exact beq_self_eq_true b
      rw [if_pos this]
    have hfua : findUserById l2 a = .ok (some wa) :=
      (findUserById_ok_iff _ a _).mpr ⟨hva, hfind_a⟩
    have hfub : findUserById l2 b = .ok (some (f2 vb)) :=
      (findUserById_ok_iff _ b _).mpr ⟨hvb, hfind_b⟩
    have hmemb : b ∈ wa.following := by rw [hwaf]; simp
    refine ⟨?_, rfl, ?_⟩
    · simp [CoreSvc.addFollowing, hfua, hfub, hmemb]
    · refine ⟨f2 vb, by simp [CoreSvc.addFollowing, hfua, hfub, hmemb, hfind_b], ?_⟩
      show (ub.followers ++ [a]).count a = 1
      rw [List.count_append, hcnt0]
      simp

/-- C2: unfollowing a user that is not in the caller's following list
fails with the `You are not following this user` error, and the store —
hence every user's following, followers and connections lists — is
returned exactly as it was (the check precedes every write). -/
theorem claim_C2 (l : Store) (a b : String) (ua : UserRec)
    (ha : findUserById l a = .ok (some ua))
    (hnf : b ∉ ua.following) :
    CoreSvc.removeFollowing l a b = (.error .notFollowing, l) ∧
    SvcError.message .notFollowing = "You are not following this user" := by
  refine ⟨?_, rfl⟩
  simp [CoreSvc.removeFollowing, ha, hnf]

/-- On the success path, `removeFollowing` filters the edge out of both
documents (given the re-fetched target `w` holds the reverse edge). -/
theorem removeFollowing_ok_eq (l : Store) (a b : String) (ua w : UserRec)
    (ha : findUserById l a = .ok (some ua))
    (hmem : b ∈ ua.following)
    (hvb : isValidObjectId b = true)
    (hw : findById (CoreSvc.removeFollowingStep l a ua.following b) b = some w)
    (hwmem : a ∈ w.followers) :
    CoreSvc.removeFollowing l a b =
      (.ok (), updateById (CoreSvc.removeFollowingStep l a ua.following b)
        b (fun u => { u with followers := w.followers.filter (fun i => !(i == a)) })) := by
  have hfw : findUserById (CoreSvc.removeFollowingStep l a ua.following b) b
      = .ok (some w) :=
    (findUserById_ok_iff _ b _).mpr ⟨hvb, hw⟩
  simp [CoreSvc.removeFollowing, ha, hmem, hfw, hwmem]

/-- C3: for distinct existing users A, B with no A→B edge on either side,
`addFollowing(A,B)` followed by `removeFollowing(A,B)` succeeds and
restores both users' records — in particular A's following list and B's
followers list — to exactly their pre-follow state. -/
theorem claim_C3 (l : Store) (a b : String) (ua ub : UserRec)
    (hab : a ≠ b)
    (ha : findUserById l a = .ok (some ua))
    (hb : findUserById l b = .ok (some ub))
    (hnf : b ∉ ua.following)
    (hnfol : a ∉ ub.followers) :
    (CoreSvc.addFollowing l a b).1 = .ok () ∧
    (CoreSvc.removeFollowing (CoreSvc.addFollowing l a b).2 a b).1 = .ok () ∧
    findById (CoreSvc.removeFollowing (CoreSvc.addFollowing l a b).2 a b).2 a
      = some ua ∧
    findById (CoreSvc.removeFollowing (CoreSvc.addFollowing l a b).2 a b).2 b
      = some ub := by
  obtain ⟨hva, hfa⟩ := (findUserById_ok_iff l a ua).mp ha
  obtain ⟨hvb, hfb⟩ := (findUserById_ok_iff l b ub).mp hb
  have hia : ua.id = a := id_of_findById hfa
  have hib : ub.id = b := id_of_findById hfb
  have hba : b ≠ a := fun e => hab e.symm
  rw [addFollowing_ok_eq l a b ua ub ha hb hnf, if_neg hnfol]
  set f1 : UserRec → UserRec :=
    fun u => { u with following := ua.following ++ [b] } with hf1def
  set f2 : UserRec → UserRec :=
    fun u => { u with followers := ub.followers ++ [a] } with hf2def
  have hf1 : ∀ u, (f1 u).id = u.id := fun u => rfl
  have hf2 : ∀ u, (f2 u).id = u.id := fun u => rfl
  set l2 := updateById (updateById l a f1) b f2 with hl2def
  have hbeq_ab : ((ua.id == b) = false) := by rw [hia]; exact beq_eq_false_iff_ne.mpr hab
  have hbeq_ba : ((ub.id == a) = false) := by rw [hib]; exact beq_eq_false_iff_ne.mpr hba
  have hid1 : (f1 ua).id = ua.id := rfl
  have hid2 : (f2 ub).id = ub.id := rfl
  have e1a : (if ua.id == a then f1 ua else ua) = f1 ua := if_pos (by simp [hia])
  have e1b : (if ub.id == a then f1 ub else ub) = ub := if_neg (by simp [hbeq_ba])
  have e2a : (if (f1 ua).id == b then f2 (f1 ua) else f1 ua) = f1 ua :=
    if_neg (by simp [hid1, hbeq_ab])
  have e2b : (if ub.id == b then f2 ub else ub) = f2 ub := if_pos (by simp [hib])
  have hfind2_a : findById l2 a = some (f1 ua) := by
    rw [hl2def, findById_updateById _ b f2 hf2 a,
      findById_updateById l a f1 hf1 a, hfa]
    simp only [Option.map_some']
    rw [e1a, e2a]
  have hfind2_b : findById l2 b = some (f2 ub) := by
    rw [hl2def, findById_updateById _ b f2 hf2 b,
      findById_updateById l a f1 hf1 b, hfb]
    simp only [Option.map_some']
    rw [e1b, e2b]
  have hfua2 : findUserById l2 a = .ok (some (f1 ua)) :=
    (findUserById_ok_iff _ a _).mpr ⟨hva, hfind2_a⟩
  have hmemb : b ∈ (f1 ua).following := by
    show b ∈ ua.following ++ [b]
    simp
  set f3 : UserRec → UserRec :=
    fun u => { u with following := (f1 ua).following.filter (fun i => !(i == b)) } with hf3def
  have hf3 : ∀ u, (f3 u).id = u.id := fun u => rfl
  have e3b : (if (f2 ub).id == a then f3 (f2 ub) else f2 ub) = f2 ub :=
    if_neg (by simp [hid2, hbeq_ba])
  have hstepeq : CoreSvc.removeFollowingStep l2 a (f1 ua).following b
      = updateById l2 a f3 := rfl
  have hfind3_b : findById (updateById l2 a f3) b = some (f2 ub) := by
    rw [findById_updateById l2 a f3 hf3 b, hfind2_b]
    simp only [Option.map_some']
    rw [e3b]
  have hfind3_b' : findById (CoreSvc.removeFollowingStep l2 a (f1 ua).following b) b
      = some (f2 ub) := by rw [hstepeq]; exact hfind3_b
  have hwmem : a ∈ (f2 ub).followers := by
    show a ∈ ub.followers ++ [a]
    simp
  rw [removeFollowing_ok_eq l2 a b (f1 ua) (f2 ub) hfua2 hmemb hvb hfind3_b' hwmem,
    hstepeq]
  set f4 : UserRec → UserRec :=
    fun u => { u with followers := (f2 ub).followers.filter (fun i => !(i == a)) } with hf4def
  have hf4 : ∀ u, (f4 u).id = u.id := fun u => rfl
  have hfil3 : (f1 ua).following.filter (fun i => !(i == b)) = ua.following := by
    show (ua.following ++ [b]).filter (fun i => !(i == b)) = ua.following
    exact filter_append_singleton_self hnf
  have hfil4 : (f2 ub).followers.filter (fun i => !(i == a)) = ub.followers := by
    show (ub.followers ++ [a]).filter (fun i => !(i == a)) = ub.followers
    exact filter_append_singleton_self hnfol
  have hrestore_a : f3 (f1 ua) = ua := by
    simp only [hf3def]
    rw [hfil3]
  have hrestore_b : f4 (f2 ub) = ub := by
    simp only [hf4def]
    rw [hfil4]
  have e3a : (if (f1 ua).id == a then f3 (f1 ua) else f1 ua) = f3 (f1 ua) :=
    if_pos (by simp [hid1, hia])
  have hfind3_a : findById (updateById l2 a f3) a = some ua := by
    rw [findById_updateById l2 a f3 hf3 a, hfind2_a]
    simp only [Option.map_some']
    rw [e3a, hrestore_a]
  have e4a : (if ua.id == b then f4 ua else ua) = ua := if_neg (by simp [hbeq_ab])
  have e4b : (if (f2 ub).id == b then f4 (f2 ub) else f2 ub) = f4 (f2 ub) :=
    if_pos (by simp [hid2, hib])
  refine ⟨rfl, rfl, ?_, ?_⟩
  · rw [findById_updateById _ b f4 hf4 a, hfind3_a]
    simp only [Option.map_some']
    rw [e4a]
  · rw [findById_updateById _ b f4 hf4 b, hfind3_b]
    simp only [Option.map_some']
    rw [e4b, hrestore_b]

/-! ## Response payloads

`res.json` serialization: a mongoose document serializes to an object
whose keys are its schema paths; rest-destructuring
(`const { password, ...safeUser } = user.toObject()`) removes a key, and
`.select('-password')` excludes the path from the query result. -/

/-- A serialized JSON object: a key/value list.  List-valued paths are
serialized through their comma-joined form (only the keys matter to the
claims below). -/
abbrev Obj := List (String × String)

/-- `document.toObject()` / `res.json(document)`: every schema path of
the record, including `password`.  `username` is present only when set. -/
def toObject (u : UserRec) : Obj :=
  [("_id", u.id), ("email", u.email), ("password", u.password),
   ("full_name", u.full_name)]
  ++ (match u.username with
      | some un => [("username", un)]
      | none => [])
  ++ [("bio", u.bio), ("profile_image", u.profile_image),
      ("cover_image", u.cover_image), ("location", u.location),
      ("followers", String.intercalate "," u.followers),
      ("following", String.intercalate "," u.following),
      ("connections", String.intercalate "," u.connections)]

/-- `const { k, ...rest } = o` — drop one key from a serialized object. -/
def omitKey (k : String) (o : Obj) : Obj :=
  o.filter (fun kv => !(kv.1 == k))

def objHasKey (k : String) (o : Obj) : Bool :=
  o.any (fun kv => kv.1 == k)

/-- The body shapes produced by the controllers in scope. -/
inductive RespData where
  | message (m : String)
  | userObj (o : Obj)
  | userWrap (o : Obj)
  | successUser (o : Obj)
  | users (os : List Obj)
  | tokenUser (token : String) (o : Obj)
deriving DecidableEq, Repr

structure HttpResp where
  status : Nat
  body : RespData
deriving DecidableEq, Repr

/-- The user objects embedded in a response body. -/
def respObjs (r : HttpResp) : List Obj :=
  match r.body with
  | .message _ => []
  | .userObj o => [o]
  | .userWrap o => [o]
  | .successUser o => [o]
  | .users os => os
  | .tokenUser _ o => [o]

namespace CoreCtrl

def unauthorized : HttpResp := ⟨401, .message "Unauthorized"⟩

/-- `BaseController.handleError`: catch-all 500. -/
def serverError : HttpResp := ⟨500, .message "Server error"⟩

/-- `UserController.followUser` (`userController.ts` 483-508): guards on
authentication and on self-follow, then calls `addFollowing`; the two
client errors are translated to 400, everything else to 500. -/
def followUser (l : Store) (auth : Option String) (followId : String) :
    HttpResp × Store :=
  match auth with
  | none => (unauthorized, l)
  | some userId =>
    if userId == followId then
      (⟨400, .message "You cannot follow yourself"⟩, l)
    else
      match CoreSvc.addFollowing l userId followId with
      | (.ok _, l1) => (⟨200, .message "Now you are following this user"⟩, l1)
      | (.error e, l1) =>
        ((if e == .alreadyFollowing || e == .followNotFound then
          (⟨400, .message e.message⟩ : HttpResp)
        else
          serverError), l1)

/-- `UserController.unfollowUser` (`userController.ts` 510-533). -/
def unfollowUser (l : Store) (auth : Option String) (unfollowId : String) :
    HttpResp × Store :=
  match auth with
  | none => (unauthorized, l)
  | some userId =>
    if userId == unfollowId then
      (⟨400, .message "You cannot unfollow yourself"⟩, l)
    else
      match CoreSvc.removeFollowing l userId unfollowId with
      | (.ok _, l1) => (⟨200, .message "You have unfollowed this user"⟩, l1)
      | (.error e, l1) =>
        ((if e == .notFollowing then
          (⟨400, .message e.message⟩ : HttpResp)
        else
          serverError), l1)

end CoreCtrl

/-- C4: a follow request whose target equals the authenticated caller is
rejected with 400 `You cannot follow yourself`, and the store — hence
every user's relation lists — is returned unchanged. -/
theorem claim_C4 (l : Store) (a : String) :
    CoreCtrl.followUser l (some a) a =
      (⟨400, .message "You cannot follow yourself"⟩, l) := by
  simp [CoreCtrl.followUser]

namespace ModSvc

/-- `User.findByIdAndUpdate(uid, upd)` as used by the route-mounted
service (`user.service.ts`): a malformed id raises a `CastError`; a
missing id is a silent no-op (the returned `null` is ignored). -/
def findByIdAndUpdate (l : Store) (uid : String) (f : UserRec → UserRec) :
    Except SvcError Store :=
  if isValidObjectId uid then .ok (updateById l uid f) else .error .castError

/-- MongoDB `$addToSet`: append if absent. -/
def addToSet (xs : List String) (x : String) : List String :=
  if xs.contains x then xs else xs ++ [x]

/-- MongoDB `$pull`: remove every occurrence. -/
def pull (xs : List String) (x : String) : List String :=
  xs.filter (fun i => !(i == x))

/-- `UserService.followUser` (`user.service.ts` 31-34): two sequential
`$addToSet` updates; no self-reference, duplicate or existence check. -/
def followUser (l : Store) (userId targetId : String) :
    Except SvcError Unit × Store :=
  match findByIdAndUpdate l userId
      (fun u => { u with following := addToSet u.following targetId }) with
  | .error e => (.error e, l)
  | .ok l1 =>
    match findByIdAndUpdate l1 targetId
        (fun u => { u with followers := addToSet u.followers userId }) with
    | .error e => (.error e, l1)
    | .ok l2 => (.ok (), l2)

/-- `UserService.unfollowUser` (`user.service.ts` 36-39): two sequential
`$pull` updates; never fails on a missing edge. -/
def unfollowUser (l : Store) (userId targetId : String) :
    Except SvcError Unit × Store :=
  match findByIdAndUpdate l userId
      (fun u => { u with following := pull u.following targetId }) with
  | .error e => (.error e, l)
  | .ok l1 =>
    match findByIdAndUpdate l1 targetId
        (fun u => { u with followers := pull u.followers userId }) with
    | .error e => (.error e, l1)
    | .ok l2 => (.ok (), l2)

/-- `UserService.connectUsers` (`user.service.ts` 41-44): symmetric
`$addToSet` on both users' `connections`; no self-reference check. -/
def connectUsers (l : Store) (userId targetId : String) :
    Except SvcError Unit × Store :=
  match findByIdAndUpdate l userId
      (fun u => { u with connections := addToSet u.connections targetId }) with
  | .error e => (.error e, l)
  | .ok l1 =>
    match findByIdAndUpdate l1 targetId
        (fun u => { u with connections := addToSet u.connections userId }) with
    | .error e => (.error e, l1)
    | .ok l2 => (.ok (), l2)

/-- `UserService.getUserById`: `User.findById`. -/
def getUserById (l : Store) (id : String) : Except SvcError (Option UserRec) :=
  if isValidObjectId id then .ok (findById l id) else .error .castError

end ModSvc

/-! ## The self-relation invariant (§3) -/

/-- A single record contains no self-relation. -/
def noSelfRec (u : UserRec) : Prop :=
  u.id ∉ u.followers ∧ u.id ∉ u.following ∧ u.id ∉ u.connections

instance (u : UserRec) : Decidable (noSelfRec u) := by
  unfold noSelfRec
  infer_instance

/-- §3 invariant: an identifier never appears in its own
followers/following/connections list. -/
def noSelfRelation (l : Store) : Prop :=
  ∀ u ∈ l, noSelfRec u

instance (l : Store) : Decidable (noSelfRelation l) := by
  unfold noSelfRelation
  infer_instance

theorem noSelfRelation_updateById (l : Store) (x : String) (f : UserRec → UserRec)
    (hpres : ∀ u ∈ l, u.id = x → noSelfRec u → noSelfRec (f u))
    (hinv : noSelfRelation l) : noSelfRelation (updateById l x f) := by
  intro u' hu'
  obtain ⟨u, hu, he⟩ := List.mem_map.mp hu'
  by_cases h : (u.id == x) = true
  · rw [if_pos h] at he
    exact he ▸ hpres u hu (eq_of_beq h) (hinv u hu)
  · rw [if_neg h] at he
    exact he ▸ hinv u hu

theorem not_mem_addToSet {xs : List String} {x y : String}
    (h1 : y ∉ xs) (h2 : y ≠ x) : y ∉ ModSvc.addToSet xs x := by
  unfold ModSvc.addToSet
  split
  · exact h1
  · intro hm
    rcases List.mem_append.mp hm with hm' | hm'
    · exact h1 hm'
    · exact h2 (List.mem_singleton.mp hm')

theorem not_mem_pull {xs : List String} {x y : String}
    (h1 : y ∉ xs) : y ∉ ModSvc.pull xs x := by
  intro hm
  exact h1 (List.mem_of_mem_filter hm)

theorem not_mem_append_singleton {xs : List String} {x y : String}
    (h1 : y ∉ xs) (h2 : y ≠ x) : y ∉ xs ++ [x] := by
  intro hm
  rcases List.mem_append.mp hm with hm' | hm'
  · exact h1 hm'
  · exact h2 (List.mem_singleton.mp hm')

theorem modFollowUser_preserves (l : Store) (a b : String) (hab : a ≠ b)
    (hinv : noSelfRelation l) : noSelfRelation (ModSvc.followUser l a b).2 := by
  unfold ModSvc.followUser ModSvc.findByIdAndUpdate
  by_cases hva : isValidObjectId a = true
  · have hinv1 : noSelfRelation (updateById l a
        (fun u => { u with following := ModSvc.addToSet u.following b })) := by
      apply noSelfRelation_updateById _ _ _ _ hinv
      intro u _ hid hns
      exact ⟨hns.1, not_mem_addToSet hns.2.1 (hid ▸ hab), hns.2.2⟩
    by_cases hvb : isValidObjectId b = true
    · simp only [hva, hvb, if_true]
      apply noSelfRelation_updateById _ _ _ _ hinv1
      intro u _ hid hns
      exact ⟨not_mem_addToSet hns.1 (hid ▸ hab.symm : u.id ≠ a), hns.2.1, hns.2.2⟩
    · simp only [hva, hvb, if_true, if_false]
      exact hinv1
  · simp only [hva, if_false]
    exact hinv

theorem modUnfollowUser_preserves (l : Store) (a b : String)
    (hinv : noSelfRelation l) : noSelfRelation (ModSvc.unfollowUser l a b).2 := by
  unfold ModSvc.unfollowUser ModSvc.findByIdAndUpdate
  by_cases hva : isValidObjectId a = true
  · have hinv1 : noSelfRelation (updateById l a
        (fun u => { u with following := ModSvc.pull u.following b })) := by
      apply noSelfRelation_updateById _ _ _ _ hinv
      intro u _ _ hns
      exact ⟨hns.1, not_mem_pull hns.2.1, hns.2.2⟩
    by_cases hvb : isValidObjectId b = true
    · simp only [hva, hvb, if_true]
      apply noSelfRelation_updateById _ _ _ _ hinv1
      intro u _ _ hns
      exact ⟨not_mem_pull hns.1, hns.2.1, hns.2.2⟩
    · simp only [hva, hvb, if_true, if_false]
      exact hinv1
  · simp only [hva, if_false]
    exact hinv

theorem modConnectUsers_preserves (l : Store) (a b : String) (hab : a ≠ b)
    (hinv : noSelfRelation l) : noSelfRelation (ModSvc.connectUsers l a b).2 := by
  unfold ModSvc.connectUsers ModSvc.findByIdAndUpdate
  by_cases hva : isValidObjectId a = true
  · have hinv1 : noSelfRelation (updateById l a
        (fun u => { u with connections := ModSvc.addToSet u.connections b })) := by
      apply noSelfRelation_updateById _ _ _ _ hinv
      intro u _ hid hns
      exact ⟨hns.1, hns.2.1, not_mem_addToSet hns.2.2 (hid ▸ hab)⟩
    by_cases hvb : isValidObjectId b = true
    · simp only [hva, hvb, if_true]
      apply noSelfRelation_updateById _ _ _ _ hinv1
      intro u _ hid hns
      exact ⟨hns.1, hns.2.1, not_mem_addToSet hns.2.2 (hid ▸ hab.symm : u.id ≠ a)⟩
    · simp only [hva, hvb, if_true, if_false]
      exact hinv1
  · simp only [hva, if_false]
    exact hinv

theorem coreAddFollowing_preserves (l : Store) (a b : String) (hab : a ≠ b)
    (hinv : noSelfRelation l) : noSelfRelation (CoreSvc.addFollowing l a b).2 := by
  cases hfa : findUserById l a with
  | error e =>
    have hs : (CoreSvc.addFollowing l a b).2 = l := by
      simp [CoreSvc.addFollowing, hfa]
    rw [hs]; exact hinv
  | ok oa =>
    cases oa with
    | none =>
      have hs : (CoreSvc.addFollowing l a b).2 = l := by
        simp [CoreSvc.addFollowing, hfa]
      rw [hs]; exact hinv
    | some ua =>
      cases hfb : findUserById l b with
      | error e =>
        have hs : (CoreSvc.addFollowing l a b).2 = l := by
          simp [CoreSvc.addFollowing, hfa, hfb]
        rw [hs]; exact hinv
      | ok ob =>
        cases ob with
        | none =>
          have hs : (CoreSvc.addFollowing l a b).2 = l := by
            simp [CoreSvc.addFollowing, hfa, hfb]
          rw [hs]; exact hinv
        | some ub =>
          obtain ⟨hva, hfa'⟩ := (findUserById_ok_iff l a ua).mp hfa
          obtain ⟨hvb, hfb'⟩ := (findUserById_ok_iff l b ub).mp hfb
          have hia : ua.id = a := id_of_findById hfa'
          have hib : ub.id = b := id_of_findById hfb'
          have hnsa : noSelfRec ua := hinv ua (mem_of_findById hfa')
          have hnsb : noSelfRec ub := hinv ub (mem_of_findById hfb')
          have hana : a ∉ ua.following := by rw [← hia]; exact hnsa.2.1
          have hbnb : b ∉ ub.followers := by rw [← hib]; exact hnsb.1
          by_cases hc : b ∈ ua.following
          · have hs : (CoreSvc.addFollowing l a b).2 = l := by
              simp [CoreSvc.addFollowing, hfa, hfb, hc]
            rw [hs]; exact hinv
          · rw [addFollowing_ok_eq l a b ua ub hfa hfb hc]
            have hinv1 : noSelfRelation (updateById l a
                (fun u => { u with following := ua.following ++ [b] })) := by
              apply noSelfRelation_updateById _ _ _ _ hinv
              intro u _ hid hns
              refine ⟨hns.1, ?_, hns.2.2⟩
              rw [hid]
              exact not_mem_append_singleton hana hab
            by_cases hfol : a ∈ ub.followers
            · rw [if_pos hfol]
              exact hinv1
            · rw [if_neg hfol]
              apply noSelfRelation_updateById _ _ _ _ hinv1
              intro u _ hid hns
              refine ⟨?_, hns.2.1, hns.2.2⟩
              rw [hid]
              exact not_mem_append_singleton hbnb (fun e => hab e.symm)

theorem coreRemoveFollowing_preserves (l : Store) (a b : String)
    (hinv : noSelfRelation l) : noSelfRelation (CoreSvc.removeFollowing l a b).2 := by
  cases hfa : findUserById l a with
  | error e =>
    have hs : (CoreSvc.removeFollowing l a b).2 = l := by
      simp [CoreSvc.removeFollowing, hfa]
    rw [hs]; exact hinv
  | ok oa =>
    cases oa with
    | none =>
      have hs : (CoreSvc.removeFollowing l a b).2 = l := by
        simp [CoreSvc.removeFollowing, hfa]
      rw [hs]; exact hinv
    | some ua =>
      obtain ⟨hva, hfa'⟩ := (findUserById_ok_iff l a ua).mp hfa
      have hia : ua.id = a := id_of_findById hfa'
      have hnsa : noSelfRec ua := hinv ua (mem_of_findById hfa')
      have hana : a ∉ ua.following := by rw [← hia]; exact hnsa.2.1
      by_cases hc : b ∈ ua.following
      · have hinv1 : noSelfRelation (CoreSvc.removeFollowingStep l a ua.following b) := by
          apply noSelfRelation_updateById _ _ _ _ hinv
          intro u _ hid hns
          refine ⟨hns.1, ?_, hns.2.2⟩
          rw [hid]
          intro hm
          exact hana (List.mem_of_mem_filter hm)
        cases hfw : findUserById (CoreSvc.removeFollowingStep l a ua.following b) b with
        | error e =>
          have hs : (CoreSvc.removeFollowing l a b).2
              = CoreSvc.removeFollowingStep l a ua.following b := by
            simp [CoreSvc.removeFollowing, hfa, hc, hfw]
          rw [hs]; exact hinv1
        | ok ow =>
          cases ow with
          | none =>
            have hs : (CoreSvc.removeFollowing l a b).2
                = CoreSvc.removeFollowingStep l a ua.following b := by
              simp [CoreSvc.removeFollowing, hfa, hc, hfw]
            rw [hs]; exact hinv1
          | some w =>
            obtain ⟨hvb, hfw'⟩ := (findUserById_ok_iff _ b w).mp hfw
            have hibw : w.id = b := id_of_findById hfw'
            have hnsw : noSelfRec w := hinv1 w (mem_of_findById hfw')
            have hbnw : b ∉ w.followers := by rw [← hibw]; exact hnsw.1
            by_cases hwm : a ∈ w.followers
            · have hs : (CoreSvc.removeFollowing l a b).2
                  = updateById (CoreSvc.removeFollowingStep l a ua.following b) b
                    (fun u => { u with
                      followers := w.followers.filter (fun i => !(i == a)) }) := by
                simp [CoreSvc.removeFollowing, hfa, hc, hfw, hwm]
              rw [hs]
              apply noSelfRelation_updateById _ _ _ _ hinv1
              intro u _ hid hns
              refine ⟨?_, hns.2.1, hns.2.2⟩
              rw [hid]
              intro hm
              exact hbnw (List.mem_of_mem_filter hm)
            · have hs : (CoreSvc.removeFollowing l a b).2
                  = CoreSvc.removeFollowingStep l a ua.following b := by
                simp [CoreSvc.removeFollowing, hfa, hc, hfw, hwm]
              rw [hs]; exact hinv1
      · have hs : (CoreSvc.removeFollowing l a b).2 = l := by
          simp [CoreSvc.removeFollowing, hfa, hc]
        rw [hs]; exact hinv

theorem coreFollowUserCtrl_preserves (l : Store) (auth : Option String)
    (followId : String) (hinv : noSelfRelation l) :
    noSelfRelation (CoreCtrl.followUser l auth followId).2 := by
  cases auth with
  | none => exact hinv
  | some userId =>
    simp only [CoreCtrl.followUser]
    by_cases h : (userId == followId) = true
    · rw [if_pos h]; exact hinv
    · rw [if_neg h]
      have hab : userId ≠ followId := fun e => h (by rw [e]; exact beq_self_eq_true followId)
      have hpres := coreAddFollowing_preserves l userId followId hab hinv
      cases hr : CoreSvc.addFollowing l userId followId with
      | mk r l1 =>
        rw [hr] at hpres
        cases r with
        | ok u => exact hpres
        | error e => exact hpres

theorem coreUnfollowUserCtrl_preserves (l : Store) (auth : Option String)
    (unfollowId : String) (hinv : noSelfRelation l) :
    noSelfRelation (CoreCtrl.unfollowUser l auth unfollowId).2 := by
  cases auth with
  | none => exact hinv
  | some userId =>
    simp only [CoreCtrl.unfollowUser]
    by_cases h : (userId == unfollowId) = true
    · rw [if_pos h]; exact hinv
    · rw [if_neg h]
      have hpres := coreRemoveFollowing_preserves l userId unfollowId hinv
      cases hr : CoreSvc.removeFollowing l userId unfollowId with
      | mk r l1 =>
        rw [hr] at hpres
        cases r with
        | ok u => exact hpres
        | error e => exact hpres

/-- C5 (amended): the guarded controller operations preserve the
no-self-relation invariant unconditionally, the service variant's
`unfollowUser` preserves it unconditionally, and the service variant's
`followUser`/`connectUsers` preserve it whenever `userId ≠ targetId` —
the service variant performs no self-reference check of its own. -/
theorem claim_C5 :
    (∀ (l : Store) (auth : Option String) (fid : String), noSelfRelation l →
      noSelfRelation (CoreCtrl.followUser l auth fid).2) ∧
    (∀ (l : Store) (auth : Option String) (uid : String), noSelfRelation l →
      noSelfRelation (CoreCtrl.unfollowUser l auth uid).2) ∧
    (∀ (l : Store) (a b : String), a ≠ b → noSelfRelation l →
      noSelfRelation (ModSvc.followUser l a b).2) ∧
    (∀ (l : Store) (a b : String), noSelfRelation l →
      noSelfRelation (ModSvc.unfollowUser l a b).2) ∧
    (∀ (l : Store) (a b : String), a ≠ b → noSelfRelation l →
      noSelfRelation (ModSvc.connectUsers l a b).2) :=
  ⟨fun l auth fid h => coreFollowUserCtrl_preserves l auth fid h,
   fun l auth uid h => coreUnfollowUserCtrl_preserves l auth uid h,
   fun l a b hab h => modFollowUser_preserves l a b hab h,
   fun l a b h => modUnfollowUser_preserves l a b h,
   fun l a b hab h => modConnectUsers_preserves l a b hab h⟩

/-- A well-formed store with a single user and empty relation lists. -/
def selfId : String := "aaaaaaaaaaaaaaaaaaaaaaaa"

def selfUser : UserRec :=
  { id := selfId, email := "a@example.com", password := "hashed-a",
    full_name := "A A", username := some "aa", bio := "",
    profile_image := "", cover_image := "", location := "",
    followers := [], following := [], connections := [] }

def selfId2 : String := "bbbbbbbbbbbbbbbbbbbbbbbb"

def selfUser2 : UserRec :=
  { id := selfId2, email := "b@example.com", password := "hashed-b",
    full_name := "B B", username := some "bb", bio := "",
    profile_image := "", cover_image := "", location := "",
    followers := [], following := [], connections := [] }

/-- C5 fails as stated: the route-mounted service's `followUser` called
with `userId = targetId` succeeds and leaves the caller's id inside its
own `following` (and `followers`) list. -/
theorem claim_C5_counterexample :
    noSelfRelation [selfUser] ∧
    (ModSvc.followUser [selfUser] selfId selfId).1 = .ok () ∧
    ¬ noSelfRelation (ModSvc.followUser [selfUser] selfId selfId).2 := by
  refine ⟨by decide, rfl, by decide⟩

theorem claim_C5_witness :
    noSelfRelation (CoreCtrl.followUser [selfUser, selfUser2] (some selfId) selfId2).2 ∧
    noSelfRelation (CoreCtrl.unfollowUser [selfUser, selfUser2] (some selfId) selfId2).2 ∧
    noSelfRelation (ModSvc.followUser [selfUser, selfUser2] selfId selfId2).2 ∧
    noSelfRelation (ModSvc.unfollowUser [selfUser, selfUser2] selfId selfId2).2 ∧
    noSelfRelation (ModSvc.connectUsers [selfUser, selfUser2] selfId selfId2).2 :=
  ⟨claim_C5.1 _ _ _ (by decide),
   claim_C5.2.1 _ _ _ (by decide),
   claim_C5.2.2.1 _ _ _ (by decide) (by decide),
   claim_C5.2.2.2.1 _ _ _ (by decide),
   claim_C5.2.2.2.2 _ _ _ (by decide) (by decide)⟩

theorem claim_C1_witness :
    (CoreSvc.addFollowing [selfUser, selfUser2] selfId selfId2).1 = .ok () ∧
    (CoreSvc.addFollowing
      (CoreSvc.addFollowing [selfUser, selfUser2] selfId selfId2).2
      selfId selfId2).1 = .error .alreadyFollowing ∧
    SvcError.message .alreadyFollowing = "Already following this user" ∧
    ∃ ub', findById (CoreSvc.addFollowing
      (CoreSvc.addFollowing [selfUser, selfUser2] selfId selfId2).2
      selfId selfId2).2 selfId2 = some ub' ∧ ub'.followers.count selfId = 1 :=
  claim_C1 [selfUser, selfUser2] selfId selfId2 selfUser selfUser2
    rfl rfl (by decide) (by decide)

theorem claim_C2_witness :
    CoreSvc.removeFollowing [selfUser, selfUser2] selfId selfId2 =
      (.error .notFollowing, [selfUser, selfUser2]) ∧
    SvcError.message .notFollowing = "You are not following this user" :=
  claim_C2 [selfUser, selfUser2] selfId selfId2 selfUser rfl (by decide)

theorem claim_C3_witness :
    (CoreSvc.addFollowing [selfUser, selfUser2] selfId selfId2).1 = .ok () ∧
    (CoreSvc.removeFollowing
      (CoreSvc.addFollowing [selfUser, selfUser2] selfId selfId2).2
      selfId selfId2).1 = .ok () ∧
    findById (CoreSvc.removeFollowing
      (CoreSvc.addFollowing [selfUser, selfUser2] selfId selfId2).2
      selfId selfId2).2 selfId = some selfUser ∧
    findById (CoreSvc.removeFollowing
      (CoreSvc.addFollowing [selfUser, selfUser2] selfId selfId2).2
      selfId selfId2).2 selfId2 = some selfUser2 :=
  claim_C3 [selfUser, selfUser2] selfId selfId2 selfUser selfUser2
    (by decide) rfl rfl (by decide) (by decide)

/-! ## Profile update (core controller) -/

/-- The text fields destructured from the update request body
(`const { username, bio, location, full_name } = req.body`); a missing
key is `undefined`. -/
structure UpdBody where
  username : Option String := none
  bio : Option String := none
  location : Option String := none
  full_name : Option String := none
deriving DecidableEq, Repr

/-- An uploaded multipart file (only its presence matters here). -/
structure ImgFile where
  data : String
deriving DecidableEq, Repr

/-- `req.files` of the multer `fields` configuration:
`profile` and `cover` slots with at most one file each. -/
structure ReqFiles where
  profile : Option ImgFile := none
  cover : Option ImgFile := none
deriving DecidableEq, Repr

/-- Outcomes of the (at most two) Cloudinary uploads of one request; the
image host is an external collaborator, so each call's result — a secure
URL, or a thrown upload error — is an oracle input. -/
structure ImgEnv where
  profileUpload : Except String String
  coverUpload : Except String String
deriving Repr

/-- The `UpdateUserData` object assembled by `updateUserId`; `undefined`
members are `none`. -/
structure UpdateUserData where
  username : Option String := none
  bio : Option String := none
  location : Option String := none
  full_name : Option String := none
  profile : Option String := none
  cover : Option String := none
deriving DecidableEq, Repr

/-- `User.findByIdAndUpdate(id, updateData, { new: true })` against the
schema of `user.model.ts`: keys present in the update are set, absent
(`undefined`) keys are omitted, and the keys `profile`/`cover` are not
schema paths, so mongoose strict mode drops them from the update. -/
def applyCoreUpdate (d : UpdateUserData) (u : UserRec) : UserRec :=
  { u with
    username := match d.username with | some v => some v | none => u.username,
    bio := d.bio.getD u.bio,
    location := d.location.getD u.location,
    full_name := d.full_name.getD u.full_name }

/-- `UserService.updateUser` (`userController.ts` 286-291); `{ new: true }`
returns the updated document. -/
def svcUpdateUser (l : Store) (uid : String) (d : UpdateUserData) :
    Except SvcError (Option UserRec × Store) :=
  if isValidObjectId uid then
    .ok ((findById l uid).map (applyCoreUpdate d),
         updateById l uid (applyCoreUpdate d))
  else .error .invalidIdFormat

namespace CoreCtrl

/-- `UserController.handleImageUploads` (`userController.ts` 439-458) run
against documents of the `user.model.ts` schema: the old-image reads
(`currentUser.profile` / `currentUser.cover`) target paths that do not
exist on the schema, so they are `undefined` and no deletion is
attempted; each present file is uploaded, and an upload failure is
thrown to the caller. -/
def handleImageUploads (env : ImgEnv) (files : ReqFiles) :
    Except String (Option String × Option String) :=
  match files.profile with
  | some _ =>
    (match env.profileUpload with
     | .error e => .error e
     | .ok purl =>
       match files.cover with
       | some _ =>
         (match env.coverUpload with
          | .error e => .error e
          | .ok curl => .ok (some purl, some curl))
       | none => .ok (some purl, none))
  | none =>
    match files.cover with
    | some _ =>
      (match env.coverUpload with
       | .error e => .error e
       | .ok curl => .ok (none, some curl))
    | none => .ok (none, none)

/-- The `updatedData` object assembled by `updateUserId`: the resolved
username (silent fallback when the requested one is taken) plus the
destructured text fields and the uploaded image URLs. -/
def finalUpdateData (l : Store) (tempUser : UserRec) (body : UpdBody)
    (uname : String) (p c : Option String) : UpdateUserData :=
  { username :=
      (if tempUser.username != some uname then
        (match findUserByUsername l uname with
         | none => some uname
         | some _ => tempUser.username)
      else tempUser.username),
    bio := body.bio, location := body.location,
    full_name := body.full_name, profile := p, cover := c }

/-- `UserController.updateUserId` (`userController.ts` 390-437).  A falsy
(`undefined` or empty) requested username short-circuits to the current
record; a requested username that differs from the current one is kept
only when `findUserByUsername` finds no owner, otherwise the update
silently falls back to the previous username. -/
def updateUserId (l : Store) (auth : Option String) (body : UpdBody)
    (files : ReqFiles) (env : ImgEnv) : HttpResp × Store :=
  match auth with
  | none => (unauthorized, l)
  | some userId =>
    match findUserById l userId with
    | .error _ => (serverError, l)
    | .ok none => (⟨404, .message "User not found"⟩, l)
    | .ok (some tempUser) =>
      match body.username with
      | none => (⟨200, .userWrap (omitKey "password" (toObject tempUser))⟩, l)
      | some uname =>
        if uname == "" then
          (⟨200, .userWrap (omitKey "password" (toObject tempUser))⟩, l)
        else
          match handleImageUploads env files with
          | .error _ => (serverError, l)
          | .ok (p, c) =>
            match svcUpdateUser l tempUser.id
                (finalUpdateData l tempUser body uname p c) with
            | .error _ => (serverError, l)
            | .ok (none, l1) => (serverError, l1)
            | .ok (some updatedUser, l1) =>
              (⟨200, .successUser (omitKey "password" (toObject updatedUser))⟩, l1)

/-- `UserController.getUserId` (`userController.ts` 367-387). -/
def getUserId (l : Store) (auth : Option String) : HttpResp :=
  match auth with
  | none => unauthorized
  | some userId =>
    match findUserById l userId with
    | .error _ => serverError
    | .ok none => ⟨404, .message "User not found"⟩
    | .ok (some user) => ⟨200, .userObj (omitKey "password" (toObject user))⟩

end CoreCtrl

/-- C6: a profile update that requests a username already owned by some
user completes successfully (HTTP 200) and the stored record keeps the
previous username — the requested name is silently dropped. -/
theorem claim_C6 (l : Store) (uid : String) (tempUser w : UserRec)
    (x y : String) (body : UpdBody) (files : ReqFiles) (env : ImgEnv)
    (hft : findUserById l uid = .ok (some tempUser))
    (hx : tempUser.username = some x)
    (hxy : x ≠ y)
    (hy : y ≠ "")
    (htaken : findUserByUsername l y = some w)
    (hbu : body.username = some y)
    (hfp : files.profile = none) (hfc : files.cover = none) :
    (CoreCtrl.updateUserId l (some uid) body files env).1.status = 200 ∧
    ∃ u', findById (CoreCtrl.updateUserId l (some uid) body files env).2 uid
      = some u' ∧ u'.username = some x := by
  obtain ⟨hva, hft'⟩ := (findUserById_ok_iff l uid tempUser).mp hft
  have hidt : tempUser.id = uid := id_of_findById hft'
  have himg : CoreCtrl.handleImageUploads env files = .ok (none, none) := by
    simp [CoreCtrl.handleImageUploads, hfp, hfc]
  have hfin : (if tempUser.username != some y then
      (match findUserByUsername l y with
       | none => some y
       | some _ => tempUser.username)
    else tempUser.username) = some x := by
    rw [htaken, hx]
    have hne : ((some x : Option String) != some y) = true := by simp [hxy]
    rw [if_pos hne]
  have hyb : (y == "") = false := by simp [hy]
  have hvat : isValidObjectId tempUser.id = true := by rw [hidt]; exact hva
  have hfid2 : findById l tempUser.id = some tempUser := by rw [hidt]; exact hft'
  simp only [CoreCtrl.updateUserId, CoreCtrl.finalUpdateData, hft, hbu, hyb,
    Bool.false_eq_true, if_false, himg, hfin, svcUpdateUser, hvat, if_true,
    hfid2, Option.map_some']
  refine ⟨trivial, applyCoreUpdate
    { username := some x, bio := body.bio, location := body.location,
      full_name := body.full_name, profile := none, cover := none } tempUser,
    ?_, ?_⟩
  · rw [findById_updateById l tempUser.id (applyCoreUpdate
      { username := some x, bio := body.bio, location := body.location,
        full_name := body.full_name, profile := none, cover := none })
      (fun u => rfl) uid, hft']
    simp only [Option.map_some']
    rw [if_pos (by rw [hidt]; exact beq_self_eq_true uid)]
  · simp [applyCoreUpdate]

theorem claim_C6_witness :
    (CoreCtrl.updateUserId [selfUser, selfUser2] (some selfId)
      { username := some "bb" } {} ⟨.ok "p", .ok "c"⟩).1.status = 200 ∧
    ∃ u', findById (CoreCtrl.updateUserId [selfUser, selfUser2] (some selfId)
      { username := some "bb" } {} ⟨.ok "p", .ok "c"⟩).2 selfId = some u' ∧
      u'.username = some "aa" :=
  claim_C6 [selfUser, selfUser2] selfId selfUser selfUser2 "aa" "bb"
    { username := some "bb" } {} ⟨.ok "p", .ok "c"⟩
    rfl rfl (by decide) (by decide) rfl rfl rfl rfl

/-- ECMAScript `String.prototype.trim`: strip leading and trailing
whitespace. -/
def jsTrim (s : String) : String :=
  ⟨((s.data.dropWhile Char.isWhitespace).reverse.dropWhile
      Char.isWhitespace).reverse⟩

/-! ## Search (core controller)

`searchUsers` builds `new RegExp(searchInput, 'i')` from the raw input
and queries it against four fields.  The matcher below models the
ECMAScript fragment these patterns can exercise soundly: literal
characters and the `.` wildcard, under the `i` flag; the theorems about
it are stated only for patterns inside this fragment. -/

/-- One pattern character against one text character: `.` matches any
character, any other character matches case-insensitively. -/
def charMatches (p c : Char) : Bool :=
  p == '.' || p.toLower == c.toLower

/-- Match the whole pattern against a prefix of the text. -/
def matchHere : List Char → List Char → Bool
  | [], _ => true
  | _ :: _, [] => false
  | p :: ps, c :: cs => charMatches p c && matchHere ps cs

/-- `RegExp.test`: match at any position of the text. -/
def regexSearch (pat : List Char) : List Char → Bool
  | [] => matchHere pat []
  | c :: cs => matchHere pat (c :: cs) || regexSearch pat cs

def regexTestI (pat s : String) : Bool :=
  regexSearch pat.data s.data

/-- The `$or` regex query of `searchUsers`: any of `username`, `email`,
`full_name`, `location` matches (a document without a `username` path
matches nothing on that branch). -/
def matchesQuery (pat : String) (u : UserRec) : Bool :=
  (match u.username with
   | some un => regexTestI pat un
   | none => false) ||
  regexTestI pat u.email || regexTestI pat u.full_name ||
  regexTestI pat u.location

/-- `UserService.searchUsers` (`userController.ts` 293-306): regex query
with `select('-password')`, then drop the requesting user's document.
The password exclusion is applied when the documents are serialized. -/
def svcSearchUsers (l : Store) (searchInput excludeUserId : String) : Store :=
  (l.filter (fun u => matchesQuery searchInput u)).filter
    (fun u => !(u.id == excludeUserId))

namespace CoreCtrl

/-- `UserController.searchUsers` (`userController.ts` 461-480): missing,
empty or whitespace-only input returns an empty `users` payload; any
other input is trimmed and handed to the service. -/
def searchUsers (l : Store) (auth : Option String) (input : Option String) :
    HttpResp :=
  match auth with
  | none => unauthorized
  | some userId =>
    match input with
    | none => ⟨200, .users []⟩
    | some s =>
      if jsTrim s == "" then ⟨200, .users []⟩
      else ⟨200, .users ((svcSearchUsers l (jsTrim s) userId).map
        (fun u => omitKey "password" (toObject u)))⟩

end CoreCtrl

/-! Spec-side search description, for comparison with the implementation
(`spec.md` §4.3: "case-insensitive substring match across username,
email, full name, location"). -/

/-- Modelled from the spec's words: case-insensitive substring
containment. -/
def specContainsCI (needle hay : String) : Bool :=
  decide ((needle.data.map Char.toLower) <:+: (hay.data.map Char.toLower))

/-- Modelled from the spec's words: a user matches when some of the four
searched fields contains the input as a case-insensitive substring. -/
def specMatches (needle : String) (u : UserRec) : Bool :=
  (match u.username with
   | some un => specContainsCI needle un
   | none => false) ||
  specContainsCI needle u.email || specContainsCI needle u.full_name ||
  specContainsCI needle u.location

/-- Characters that an ECMAScript pattern treats literally; the matcher
above is faithful for patterns built from these and `.`. -/
def isRegexLiteralChar (c : Char) : Bool :=
  !([ '.', '*', '+', '?', '(', ')', '[', ']', '|', '^', '$', '\\',
      Char.ofNat 123, Char.ofNat 125 ].contains c)

theorem matchHere_literal (pat : List Char)
    (hpat : ∀ c ∈ pat, isRegexLiteralChar c = true) (text : List Char) :
    matchHere pat text = true ↔
      pat.map Char.toLower <+: text.map Char.toLower := by
  induction pat generalizing text with
  | nil => simp [matchHere]
  | cons p ps ih =>
    cases text with
    | nil =>
      simp [matchHere]
    | cons c cs =>
      have hp : p ≠ '.' := by
        intro e
        have h := hpat p (List.mem_cons_self p ps)
        rw [e] at h
        simp [isRegexLiteralChar] at h
      have hpb : (p == '.') = false := by simp [hp]
      simp only [matchHere, charMatches, hpb, Bool.false_or, Bool.and_eq_true,
        beq_iff_eq, List.map_cons, List.cons_prefix_cons]
      rw [ih (fun d hd => hpat d (List.mem_cons_of_mem p hd))]

theorem regexSearch_literal (pat : List Char)
    (hpat : ∀ c ∈ pat, isRegexLiteralChar c = true) (text : List Char) :
    regexSearch pat text = true ↔
      pat.map Char.toLower <:+: text.map Char.toLower := by
  induction text with
  | nil =>
    simp only [regexSearch]
    rw [matchHere_literal pat hpat []]
    simp only [List.map_nil, List.prefix_nil, List.infix_nil]
  | cons c cs ih =>
    simp only [regexSearch, Bool.or_eq_true]
    rw [matchHere_literal pat hpat (c :: cs), ih, List.map_cons]
    constructor
    · rintro (h | h)
      · exact List.IsPrefix.isInfix h
      · exact List.infix_cons h
    · intro h
      rcases List.infix_cons_iff.mp h with h' | h'
      · exact Or.inl h'
      · exact Or.inr h'

theorem regexTestI_literal (pat s : String)
    (hpat : ∀ c ∈ pat.data, isRegexLiteralChar c = true) :
    regexTestI pat s = specContainsCI pat s := by
  by_cases h : regexTestI pat s = true
  · rw [h]
    have := (regexSearch_literal pat.data hpat s.data).mp h
    simp [specContainsCI, this]
  · have hb : regexTestI pat s = false := by
      cases hx : regexTestI pat s
      · rfl
      · exact absurd hx h
    rw [hb]
    have : ¬ (pat.data.map Char.toLower <:+: s.data.map Char.toLower) := by
      intro hc
      exact h ((regexSearch_literal pat.data hpat s.data).mpr hc)
    simp [specContainsCI, this]

theorem matchesQuery_literal (pat : String) (u : UserRec)
    (hpat : ∀ c ∈ pat.data, isRegexLiteralChar c = true) :
    matchesQuery pat u = specMatches pat u := by
  unfold matchesQuery specMatches
  rw [regexTestI_literal pat u.email hpat, regexTestI_literal pat u.full_name hpat,
    regexTestI_literal pat u.location hpat]
  cases u.username with
  | none => rfl
  | some un =>
    simp only []
    rw [regexTestI_literal pat un hpat]

/-- C8 (amended): blank (missing/empty/whitespace) input yields an empty
result set with no error, and the requesting user is never included.
For non-blank input the service matches the TRIMMED input as a
case-insensitive ECMAScript regular expression; only when the trimmed
input consists of literal pattern characters does this coincide with the
spec's case-insensitive substring match over username, email, full name
and location. -/
theorem claim_C8 :
    (∀ (l : Store) (uid input : String), jsTrim input = "" →
      CoreCtrl.searchUsers l (some uid) (some input) = ⟨200, .users []⟩) ∧
    (∀ (l : Store) (uid : String),
      CoreCtrl.searchUsers l (some uid) none = ⟨200, .users []⟩) ∧
    (∀ (l : Store) (uid input : String),
      (∀ c ∈ (jsTrim input).data, isRegexLiteralChar c = true) →
      svcSearchUsers l (jsTrim input) uid =
        l.filter (fun u => specMatches (jsTrim input) u && !(u.id == uid))) ∧
    (∀ (l : Store) (pat uid : String) (u : UserRec),
      u ∈ svcSearchUsers l pat uid → u.id ≠ uid) := by
  refine ⟨?_, ?_, ?_, ?_⟩
  · intro l uid input h
    simp [CoreCtrl.searchUsers, h]
  · intro l uid
    rfl
  · intro l uid input hlit
    unfold svcSearchUsers
    rw [List.filter_filter]
    apply List.filter_congr
    intro u hu
    rw [matchesQuery_literal (jsTrim input) u hlit]
    exact Bool.and_comm _ _
  · intro l pat uid u hu
    have hne := (List.mem_filter.mp hu).2
    intro he
    rw [he] at hne
    simp at hne

/-- Two users whose searched fields do not contain a literal dot. -/
def searchReqUser : UserRec :=
  { id := "cccccccccccccccccccccccc", email := "req@example",
    password := "hashed-r", full_name := "Req", username := some "req",
    bio := "", profile_image := "", cover_image := "", location := "",
    followers := [], following := [], connections := [] }

def searchOtherUser : UserRec :=
  { id := "dddddddddddddddddddddddd", email := "abc@example",
    password := "hashed-d", full_name := "Abc", username := some "abc",
    bio := "", profile_image := "", cover_image := "", location := "Cityville",
    followers := [], following := [], connections := [] }

/-- C8 fails as stated: the raw input is used as a regular expression,
so the input `"."` returns a user none of whose searched fields contains
`"."` as a substring — the "exactly the users whose fields contain the
input" characterization is violated. -/
theorem claim_C8_counterexample :
    searchOtherUser ∈
      svcSearchUsers [searchReqUser, searchOtherUser] "." searchReqUser.id ∧
    specMatches "." searchOtherUser = false ∧
    CoreCtrl.searchUsers [searchReqUser, searchOtherUser]
      (some searchReqUser.id) (some ".") =
      ⟨200, .users [omitKey "password" (toObject searchOtherUser)]⟩ := by
  refine ⟨by decide, by decide, rfl⟩

theorem claim_C8_witness :
    CoreCtrl.searchUsers [searchReqUser, searchOtherUser]
      (some searchReqUser.id) (some "   ") = ⟨200, .users []⟩ ∧
    svcSearchUsers [searchReqUser, searchOtherUser] (jsTrim "abc") searchReqUser.id
      = [searchReqUser, searchOtherUser].filter
          (fun u => specMatches (jsTrim "abc") u && !(u.id == searchReqUser.id)) ∧
    searchOtherUser.id ≠ searchReqUser.id :=
  ⟨claim_C8.1 [searchReqUser, searchOtherUser] searchReqUser.id "   " (by decide),
   claim_C8.2.2.1 [searchReqUser, searchOtherUser] searchReqUser.id "abc" (by decide),
   claim_C8.2.2.2 [searchReqUser, searchOtherUser] "abc" searchReqUser.id
     searchOtherUser (by decide)⟩

theorem objHasKey_omitKey (k : String) (o : Obj) :
    objHasKey k (omitKey k o) = false := by
  unfold objHasKey omitKey
  cases h : (o.filter fun kv => !(kv.1 == k)).any (fun kv => kv.1 == k) with
  | false => rfl
  | true =>
    obtain ⟨kv, hkv, hk⟩ := List.any_eq_true.mp h
    have hmem := (List.mem_filter.mp hkv).2
    rw [hk] at hmem
    simp at hmem

namespace ModCtrl

/-- Modelled from the spec: `core/controller/base.controller.ts` is not
among the sources (only its callers are).  Per §7 the boundary catches
thrown values and reports a generic client-facing error payload, and on
success the handler's result is returned as the response payload with
the success message; no payload rewriting is described. -/
def handleRequest (handler : Except String RespData)
    (successMsg errorMsg : String) : HttpResp :=
  match handler with
  | .ok d => ⟨200, d⟩
  | .error _ => ⟨500, .message errorMsg⟩

/-- `UserController.getAllUsers` (`user.controller.ts` 10-15):
`UserService.getAllUsers` is `User.find()` — full documents, password
included. -/
def getAllUsers (l : Store) : HttpResp :=
  handleRequest (.ok (.users (l.map toObject)))
    "Fetched all users successfully" "Failed to fetch users"

/-- `UserController.getUserById` (`user.controller.ts` 17-25). -/
def getUserById (l : Store) (id : String) : HttpResp :=
  handleRequest
    (match ModSvc.getUserById l id with
     | .error e => .error e.message
     | .ok none => .error "User not found"
     | .ok (some u) => .ok (.userObj (toObject u)))
    "Fetched user successfully" "Failed to fetch user"

/-- `AuthController.login` (`auth.controller.ts` 10-22): the success
payload is `{ token, user }` with the full stored document; `compare`
stands for `bcrypt.compare` and `token` for the signed JWT. -/
def login (l : Store) (email password : String)
    (compare : String → String → Bool) (token : String) : HttpResp :=
  handleRequest
    (match l.find? (fun u => u.email == email) with
     | none => .error "User not found"
     | some user =>
       if compare password user.password then
         .ok (.tokenUser token (toObject user))
       else .error "Invalid Credentials")
    "Login Successful" "Failed to log in"

end ModCtrl

/-- Every response of `updateUserId` is either a plain message or a
password-stripped user payload. -/
theorem updateUserId_resp_shapes (l : Store) (auth : Option String)
    (body : UpdBody) (files : ReqFiles) (env : ImgEnv) :
    (∃ m, (CoreCtrl.updateUserId l auth body files env).1.body = .message m) ∨
    (∃ u, (CoreCtrl.updateUserId l auth body files env).1.body
      = .userWrap (omitKey "password" (toObject u))) ∨
    (∃ u, (CoreCtrl.updateUserId l auth body files env).1.body
      = .successUser (omitKey "password" (toObject u))) := by
  cases auth with
  | none => exact Or.inl ⟨"Unauthorized", rfl⟩
  | some uid =>
    cases hf : findUserById l uid with
    | error e =>
      refine Or.inl ⟨"Server error", ?_⟩
      simp [CoreCtrl.updateUserId, hf, CoreCtrl.serverError]
    | ok ou =>
      cases ou with
      | none =>
        refine Or.inl ⟨"User not found", ?_⟩
        simp [CoreCtrl.updateUserId, hf]
      | some tempUser =>
        cases hbu : body.username with
        | none =>
          refine Or.inr (Or.inl ⟨tempUser, ?_⟩)
          simp [CoreCtrl.updateUserId, hf, hbu]
        | some uname =>
          by_cases hue : (uname == "") = true
          · refine Or.inr (Or.inl ⟨tempUser, ?_⟩)
            simp [CoreCtrl.updateUserId, hf, hbu, hue]
          · cases himg : CoreCtrl.handleImageUploads env files with
            | error e =>
              refine Or.inl ⟨"Server error", ?_⟩
              simp [CoreCtrl.updateUserId, hf, hbu, hue, himg, CoreCtrl.serverError]
            | ok pc =>
              obtain ⟨p, c⟩ := pc
              cases hsvc : svcUpdateUser l tempUser.id
                  (CoreCtrl.finalUpdateData l tempUser body uname p c) with
              | error e =>
                refine Or.inl ⟨"Server error", ?_⟩
                simp [CoreCtrl.updateUserId, hf, hbu, hue, himg, hsvc,
                  CoreCtrl.serverError]
              | ok r =>
                obtain ⟨ou1, l1⟩ := r
                cases ou1 with
                | none =>
                  refine Or.inl ⟨"Server error", ?_⟩
                  simp [CoreCtrl.updateUserId, hf, hbu, hue, himg, hsvc,
                    CoreCtrl.serverError]
                | some updatedUser =>
                  refine Or.inr (Or.inr ⟨updatedUser, ?_⟩)
                  simp [CoreCtrl.updateUserId, hf, hbu, hue, himg, hsvc]

/-- C7 (amended): the guarded core-controller operations (`getUserId`,
`searchUsers`, `updateUserId`) never include the `password` key in any
user object of their response payloads.  (The route-mounted module and
auth controllers return full documents — see the counterexample.) -/
theorem claim_C7 :
    (∀ (l : Store) (auth : Option String) (o : Obj),
      o ∈ respObjs (CoreCtrl.getUserId l auth) →
        objHasKey "password" o = false) ∧
    (∀ (l : Store) (auth : Option String) (input : Option String) (o : Obj),
      o ∈ respObjs (CoreCtrl.searchUsers l auth input) →
        objHasKey "password" o = false) ∧
    (∀ (l : Store) (auth : Option String) (body : UpdBody) (files : ReqFiles)
      (env : ImgEnv) (o : Obj),
      o ∈ respObjs (CoreCtrl.updateUserId l auth body files env).1 →
        objHasKey "password" o = false) := by
  refine ⟨?_, ?_, ?_⟩
  · intro l auth o ho
    cases auth with
    | none => simp [CoreCtrl.getUserId, CoreCtrl.unauthorized, respObjs] at ho
    | some uid =>
      cases hf : findUserById l uid with
      | error e =>
        simp [CoreCtrl.getUserId, hf, CoreCtrl.serverError, respObjs] at ho
      | ok ou =>
        cases ou with
        | none => simp [CoreCtrl.getUserId, hf, respObjs] at ho
        | some u =>
          simp [CoreCtrl.getUserId, hf, respObjs] at ho
          rw [ho]
          exact objHasKey_omitKey _ _
  · intro l auth input o ho
    cases auth with
    | none => simp [CoreCtrl.searchUsers, CoreCtrl.unauthorized, respObjs] at ho
    | some uid =>
      cases input with
      | none => simp [CoreCtrl.searchUsers, respObjs] at ho
      | some s =>
        by_cases hb : (jsTrim s == "") = true
        · simp [CoreCtrl.searchUsers, hb, respObjs] at ho
        · simp [CoreCtrl.searchUsers, hb, respObjs] at ho
          obtain ⟨u, _, he⟩ := ho
          rw [← he]
          exact objHasKey_omitKey _ _
  · intro l auth body files env o ho
    rcases updateUserId_resp_shapes l auth body files env with
      ⟨m, hm⟩ | ⟨u, hu⟩ | ⟨u, hu⟩
    · simp [respObjs, hm] at ho
    · simp [respObjs, hu] at ho
      rw [ho]
      exact objHasKey_omitKey _ _
    · simp [respObjs, hu] at ho
      rw [ho]
      exact objHasKey_omitKey _ _

/-- C7 fails as stated: the route-mounted directory controller
(`getAllUsers`, through the generic `handleRequest` boundary) and the
auth controller (`login`) return full documents whose payload contains
the `password` key. -/
theorem claim_C7_counterexample :
    toObject selfUser ∈ respObjs (ModCtrl.getAllUsers [selfUser]) ∧
    respObjs (ModCtrl.login [selfUser] "a@example.com" "pw"
      (fun _ _ => true) "tok") = [toObject selfUser] ∧
    objHasKey "password" (toObject selfUser) = true := by
  refine ⟨by decide, rfl, by decide⟩

theorem claim_C7_witness :
    objHasKey "password"
      (omitKey "password" (toObject selfUser)) = false ∧
    (∀ o ∈ respObjs (CoreCtrl.getUserId [selfUser] (some selfId)),
      objHasKey "password" o = false) ∧
    (∀ o ∈ respObjs (CoreCtrl.searchUsers [selfUser, selfUser2]
      (some selfId) (some "bb")), objHasKey "password" o = false) ∧
    (∀ o ∈ respObjs (CoreCtrl.updateUserId [selfUser] (some selfId)
      { username := some "zz" } {} ⟨.ok "p", .ok "c"⟩).1,
      objHasKey "password" o = false) :=
  ⟨objHasKey_omitKey _ _,
   fun o ho => claim_C7.1 [selfUser] (some selfId) o ho,
   fun o ho => claim_C7.2.1 [selfUser, selfUser2] (some selfId) (some "bb") o ho,
   fun o ho => claim_C7.2.2 [selfUser] (some selfId)
     { username := some "zz" } {} ⟨.ok "p", .ok "c"⟩ o ho⟩

/-! ## Cloudinary client and the module profile-update workflow -/

/-- `String.prototype.split(sep)` on character lists. -/
def splitChars (sep : Char) : List Char → List (List Char)
  | [] => [[]]
  | c :: rest =>
    let r := splitChars sep rest
    if c == sep then [] :: r
    else
      match r with
      | h :: t => (c :: h) :: t
      | [] => [[c]]

def jsSplit (sep : Char) (s : String) : List String :=
  (splitChars sep s.data).map (fun cs => ⟨cs⟩)

/-- `replace(/\.[^\/.]+$/, '')`: strip a trailing `.extension` (a dot
followed by at least one character that is neither `/` nor `.`). -/
def stripExt (s : String) : String :=
  let rev := s.data.reverse
  let tl := rev.takeWhile (fun c => !(c == '.') && !(c == '/'))
  match rev.drop tl.length with
  | '.' :: rest => if tl.isEmpty then s else ⟨rest.reverse⟩
  | _ => s

/-- `CloudinaryService.extractPublicId`: split the URL on `/`, find the
`upload` segment, join everything two segments later, drop the
extension; `none` when there is no `upload` segment. -/
def extractPublicId (imageUrl : String) : Option String :=
  let urlParts := jsSplit '/' imageUrl
  match urlParts.findIdx? (fun part => part == "upload") with
  | none => none
  | some uploadIndex =>
    some (stripExt (String.intercalate "/" (urlParts.drop (uploadIndex + 2))))

/-- The observable calls made to the image host. -/
inductive ImgEvent where
  | destroyCall (publicId : String)
  | uploadCall (folder : String)
deriving DecidableEq, Repr

/-- Outcomes of the external image-host calls of one request: whether a
`destroy` of a given public id succeeds, and the result of the (single)
upload per folder. -/
structure CloudEnv where
  deleteOutcome : String → Bool
  uploadOutcome : String → Except String String

/-- `cloudinary.uploader.destroy` (external): may reject. -/
def destroy (env : CloudEnv) (publicId : String) :
    Except String Unit × List ImgEvent :=
  ((if env.deleteOutcome publicId then .ok () else .error "destroy failed"),
   [.destroyCall publicId])

/-- `CloudinaryService.deleteImage` (`cloudinary.service.ts` 147-157):
extract the public id, call `destroy` when it is truthy, and swallow any
failure — the surrounding catch only logs. -/
def deleteImage (env : CloudEnv) (imageUrl : String) : Unit × List ImgEvent :=
  match extractPublicId imageUrl with
  | none => ((), [])
  | some publicId =>
    if publicId == "" then ((), [])
    else
      match destroy env publicId with
      | (.ok _, tr) => ((), tr)
      | (.error _, tr) => ((), tr)

/-- `CloudinaryService.uploadImage`: the external call's outcome per
folder comes from the oracle; the attempt itself is recorded. -/
def uploadImage (env : CloudEnv) (folder : String) :
    Except String String × List ImgEvent :=
  (env.uploadOutcome folder, [.uploadCall folder])

/-- The `...rest` fields of the module update body. -/
structure ModRest where
  username : Option String := none
  bio : Option String := none
  location : Option String := none
  full_name : Option String := none
deriving DecidableEq, Repr

/-- The module `updateUser` request body: the four image keys are
destructured away, everything else is spread into the update. -/
structure ModBody where
  profile : Option String := none
  cover : Option String := none
  profile_image : Option String := none
  cover_image : Option String := none
  rest : ModRest := {}
deriving DecidableEq, Repr

/-- The update document handed to `UserService.updateUser`. -/
structure ModUpdates where
  username : Option String := none
  bio : Option String := none
  location : Option String := none
  full_name : Option String := none
  profile_image : Option String := none
  cover_image : Option String := none
deriving DecidableEq, Repr

/-- `User.findByIdAndUpdate(id, updates, { new: true })` for the module
variant: present keys are set, absent keys left untouched (all six are
schema paths). -/
def applyModUpdate (d : ModUpdates) (u : UserRec) : UserRec :=
  { u with
    username := match d.username with | some v => some v | none => u.username,
    bio := d.bio.getD u.bio,
    location := d.location.getD u.location,
    full_name := d.full_name.getD u.full_name,
    profile_image := d.profile_image.getD u.profile_image,
    cover_image := d.cover_image.getD u.cover_image }

/-- `UserService.updateUser` (`user.service.ts` 23-25). -/
def modSvcUpdateUser (l : Store) (uid : String) (d : ModUpdates) :
    Except SvcError (Option UserRec × Store) :=
  if isValidObjectId uid then
    .ok ((findById l uid).map (applyModUpdate d),
         updateById l uid (applyModUpdate d))
  else .error .castError

namespace ModCtrl

/-- One image slot of `updateUser` (`user.controller.ts` 64-94; the
profile and cover blocks are identical up to names): when the incoming
value is a non-blank string, best-effort-delete the existing old image
(its failure is swallowed inside `deleteImage`), then upload — an upload
failure propagates — and return the new URL for the update document. -/
def slotUpdate (env : CloudEnv) (folder : String) (incoming : Option String)
    (oldUrl : String) : Except String (Option String) × List ImgEvent :=
  match incoming with
  | none => (.ok none, [])
  | some s =>
    if jsTrim s == "" then (.ok none, [])
    else
      match uploadImage env folder with
      | (.ok url, upTr) =>
        (.ok (some url),
         (if oldUrl == "" then [] else (deleteImage env oldUrl).2) ++ upTr)
      | (.error e, upTr) =>
        (.error e,
         (if oldUrl == "" then [] else (deleteImage env oldUrl).2) ++ upTr)

/-- The update document assembled by the module `updateUser`. -/
def modFinalUpdates (body : ModBody) (pUpd cUpd : Option String) : ModUpdates :=
  { username := body.rest.username, bio := body.rest.bio,
    location := body.rest.location, full_name := body.rest.full_name,
    profile_image := pUpd, cover_image := cUpd }

/-- `UserController.updateUser` (`user.controller.ts` 46-100), with the
response shapes of the `handleRequest` boundary; the third component is
the ordered trace of image-host calls. -/
def updateUser (env : CloudEnv) (l : Store) (id : String) (body : ModBody) :
    HttpResp × Store × List ImgEvent :=
  match ModSvc.getUserById l id with
  | .error _ => (⟨500, .message "Failed to update user"⟩, l, [])
  | .ok none => (⟨500, .message "Failed to update user"⟩, l, [])
  | .ok (some existingUser) =>
    match slotUpdate env "profiles" (body.profile.or body.profile_image)
        existingUser.profile_image with
    | (.error _, tr1) => (⟨500, .message "Failed to update user"⟩, l, tr1)
    | (.ok pUpd, tr1) =>
      match slotUpdate env "covers" (body.cover.or body.cover_image)
          existingUser.cover_image with
      | (.error _, tr2) => (⟨500, .message "Failed to update user"⟩, l, tr1 ++ tr2)
      | (.ok cUpd, tr2) =>
        match modSvcUpdateUser l id (modFinalUpdates body pUpd cUpd) with
        | .error _ => (⟨500, .message "Failed to update user"⟩, l, tr1 ++ tr2)
        | .ok (none, l1) => (⟨500, .message "Failed to update user"⟩, l1, tr1 ++ tr2)
        | .ok (some updatedUser, l1) =>
          (⟨200, .userObj (toObject updatedUser)⟩, l1, tr1 ++ tr2)

end ModCtrl

theorem deleteImage_trace (env : CloudEnv) (url pid : String)
    (h : extractPublicId url = some pid) (hne : (pid == "") = false) :
    (deleteImage env url).2 = [.destroyCall pid] := by
  unfold deleteImage destroy
  rw [h]
  by_cases hdo : env.deleteOutcome pid = true <;> simp [hne, hdo]

theorem deleteImage_env_irrel (env1 env2 : CloudEnv) (url : String) :
    deleteImage env1 url = deleteImage env2 url := by
  unfold deleteImage destroy
  cases extractPublicId url with
  | none => rfl
  | some pid =>
    by_cases h : (pid == "") = true
    · simp [h]
    · by_cases h1 : env1.deleteOutcome pid = true <;>
        by_cases h2 : env2.deleteOutcome pid = true <;> simp [h, h1, h2]

theorem slotUpdate_env_irrel (env1 env2 : CloudEnv)
    (h : env1.uploadOutcome = env2.uploadOutcome)
    (folder : String) (incoming : Option String) (oldUrl : String) :
    ModCtrl.slotUpdate env1 folder incoming oldUrl
      = ModCtrl.slotUpdate env2 folder incoming oldUrl := by
  unfold ModCtrl.slotUpdate uploadImage
  rw [h, deleteImage_env_irrel env1 env2 oldUrl]

/-- C10: in the module profile-update workflow, for an image slot present
in the input: (a) the destroy of the existing old image is attempted
before the new upload; (b) the outcome of the whole update (response,
store and even the call trace) does not depend on whether deletions
succeed — only on the upload outcomes — because `deleteImage` swallows
its errors; (c) a failing upload makes the whole update fail (HTTP 500)
and leaves the store unchanged. -/
theorem claim_C10 :
    (∀ (env : CloudEnv) (l : Store) (id : String) (body : ModBody)
       (ex : UserRec) (p pid : String),
      ModSvc.getUserById l id = .ok (some ex) →
      body.profile = some p → (jsTrim p == "") = false →
      (ex.profile_image == "") = false →
      extractPublicId ex.profile_image = some pid → (pid == "") = false →
      ∃ t, (ModCtrl.updateUser env l id body).2.2
        = .destroyCall pid :: .uploadCall "profiles" :: t) ∧
    (∀ (env1 env2 : CloudEnv), env1.uploadOutcome = env2.uploadOutcome →
      ∀ (l : Store) (id : String) (body : ModBody),
        ModCtrl.updateUser env1 l id body = ModCtrl.updateUser env2 l id body) ∧
    (∀ (env : CloudEnv) (l : Store) (id : String) (body : ModBody)
       (ex : UserRec) (p e : String),
      ModSvc.getUserById l id = .ok (some ex) →
      body.profile = some p → (jsTrim p == "") = false →
      env.uploadOutcome "profiles" = .error e →
      (ModCtrl.updateUser env l id body).1
        = ⟨500, .message "Failed to update user"⟩ ∧
      (ModCtrl.updateUser env l id body).2.1 = l) := by
  refine ⟨?_, ?_, ?_⟩
  · intro env l id body ex p pid hex hp hnb hold hpid hpidne
    have hinc : body.profile.or body.profile_image = some p := by rw [hp]; rfl
    have hdel : (deleteImage env ex.profile_image).2 = [.destroyCall pid] :=
      deleteImage_trace env ex.profile_image pid hpid hpidne
    cases ho : env.uploadOutcome "profiles" with
    | error e =>
      have hslotp : ModCtrl.slotUpdate env "profiles"
          (body.profile.or body.profile_image) ex.profile_image
          = (.error e, [.destroyCall pid, .uploadCall "profiles"]) := by
        simp [ModCtrl.slotUpdate, hinc, hnb, uploadImage, ho, hold, hdel]
      exact ⟨[], by simp [ModCtrl.updateUser, hex, hslotp]⟩
    | ok url =>
      have hslotp : ModCtrl.slotUpdate env "profiles"
          (body.profile.or body.profile_image) ex.profile_image
          = (.ok (some url), [.destroyCall pid, .uploadCall "profiles"]) := by
        simp [ModCtrl.slotUpdate, hinc, hnb, uploadImage, ho, hold, hdel]
      cases hcov : ModCtrl.slotUpdate env "covers"
          (body.cover.or body.cover_image) ex.cover_image with
      | mk rc tr2 =>
        cases rc with
        | error e =>
          exact ⟨tr2, by simp [ModCtrl.updateUser, hex, hslotp, hcov]⟩
        | ok cUpd =>
          cases hupd : modSvcUpdateUser l id
              (ModCtrl.modFinalUpdates body (some url) cUpd) with
          | error e =>
            exact ⟨tr2, by simp [ModCtrl.updateUser, hex, hslotp, hcov, hupd]⟩
          | ok r =>
            obtain ⟨ou, l1⟩ := r
            cases ou with
            | none =>
              exact ⟨tr2, by simp [ModCtrl.updateUser, hex, hslotp, hcov, hupd]⟩
            | some uu =>
              exact ⟨tr2, by simp [ModCtrl.updateUser, hex, hslotp, hcov, hupd]⟩
  · intro env1 env2 h l id body
    cases hget : ModSvc.getUserById l id with
    | error e => simp [ModCtrl.updateUser, hget]
    | ok o =>
      cases o with
      | none => simp [ModCtrl.updateUser, hget]
      | some ex =>
        simp only [ModCtrl.updateUser, hget]
        rw [slotUpdate_env_irrel env1 env2 h "profiles"
            (body.profile.or body.profile_image) ex.profile_image,
          slotUpdate_env_irrel env1 env2 h "covers"
            (body.cover.or body.cover_image) ex.cover_image]
  · intro env l id body ex p e hex hp hnb hup
    have hinc : body.profile.or body.profile_image = some p := by rw [hp]; rfl
    have hslotp : (ModCtrl.slotUpdate env "profiles"
        (body.profile.or body.profile_image) ex.profile_image).1 = .error e := by
      simp [ModCtrl.slotUpdate, hinc, hnb, uploadImage, hup]
    cases hsp : ModCtrl.slotUpdate env "profiles"
        (body.profile.or body.profile_image) ex.profile_image with
    | mk rp tr1 =>
      rw [hsp] at hslotp
      cases rp with
      | ok v => exact absurd hslotp (by simp)
      | error e' =>
        have he' : e' = e := by simpa using hslotp
        subst he'
        constructor <;> simp [ModCtrl.updateUser, hex, hsp]

def imgUser : UserRec :=
  { id := "eeeeeeeeeeeeeeeeeeeeeeee", email := "img@example",
    password := "hashed-e", full_name := "Img", username := some "img",
    bio := "",
    profile_image := "https://res.cloudinary.com/demo/image/upload/v123/profiles/old.webp",
    cover_image := "", location := "",
    followers := [], following := [], connections := [] }

def imgUploadOk : String → Except String String := fun _ => .ok "https://newurl"

def envDelFail : CloudEnv := ⟨fun _ => false, imgUploadOk⟩

def envDelOk : CloudEnv := ⟨fun _ => true, imgUploadOk⟩

def envUpFail : CloudEnv := ⟨fun _ => false, fun _ => .error "boom"⟩

def imgBody : ModBody := { profile := some "base64data" }

theorem claim_C10_witness :
    (∃ t, (ModCtrl.updateUser envDelFail [imgUser] imgUser.id imgBody).2.2
      = .destroyCall "profiles/old" :: .uploadCall "profiles" :: t) ∧
    ModCtrl.updateUser envDelFail [imgUser] imgUser.id imgBody
      = ModCtrl.updateUser envDelOk [imgUser] imgUser.id imgBody ∧
    ((ModCtrl.updateUser envUpFail [imgUser] imgUser.id imgBody).1
      = ⟨500, .message "Failed to update user"⟩ ∧
     (ModCtrl.updateUser envUpFail [imgUser] imgUser.id imgBody).2.1
      = [imgUser]) :=
  ⟨claim_C10.1 envDelFail [imgUser] imgUser.id imgBody imgUser "base64data"
     "profiles/old" rfl rfl (by decide) (by decide) rfl (by decide),
   claim_C10.2.1 envDelFail envDelOk rfl [imgUser] imgUser.id imgBody,
   claim_C10.2.2 envUpFail [imgUser] imgUser.id imgBody imgUser "base64data"
     "boom" rfl rfl (by decide) rfl⟩

/-- Every store produced by `updateUserId` is either unchanged or a
single keyed update of the caller's document with the assembled
update data. -/
theorem updateUserId_store_shapes (l : Store) (uid : String) (body : UpdBody)
    (files : ReqFiles) (env : ImgEnv) :
    (CoreCtrl.updateUserId l (some uid) body files env).2 = l ∨
    ∃ tempUser uname p c,
      body.username = some uname ∧
      (CoreCtrl.updateUserId l (some uid) body files env).2
        = updateById l tempUser.id
            (applyCoreUpdate (CoreCtrl.finalUpdateData l tempUser body uname p c)) := by
  cases hf : findUserById l uid with
  | error e => exact Or.inl (by simp [CoreCtrl.updateUserId, hf])
  | ok ou =>
    cases ou with
    | none => exact Or.inl (by simp [CoreCtrl.updateUserId, hf])
    | some tempUser =>
      cases hbu : body.username with
      | none => exact Or.inl (by simp [CoreCtrl.updateUserId, hf, hbu])
      | some uname =>
        by_cases hue : (uname == "") = true
        · exact Or.inl (by simp [CoreCtrl.updateUserId, hf, hbu, hue])
        · cases himg : CoreCtrl.handleImageUploads env files with
          | error e =>
            exact Or.inl (by simp [CoreCtrl.updateUserId, hf, hbu, hue, himg])
          | ok pc =>
            obtain ⟨p, c⟩ := pc
            cases hsvc : svcUpdateUser l tempUser.id
                (CoreCtrl.finalUpdateData l tempUser body uname p c) with
            | error e =>
              exact Or.inl (by simp [CoreCtrl.updateUserId, hf, hbu, hue, himg, hsvc])
            | ok r =>
              obtain ⟨ou1, l1⟩ := r
              have hl1 : l1 = updateById l tempUser.id
                  (applyCoreUpdate (CoreCtrl.finalUpdateData l tempUser body uname p c)) := by
                unfold svcUpdateUser at hsvc
                by_cases hv : isValidObjectId tempUser.id = true
                · rw [if_pos hv] at hsvc
                  exact ((Prod.mk.injEq _ _ _ _).mp (Except.ok.inj hsvc)).2.symm
                · rw [if_neg hv] at hsvc
                  cases hsvc
              refine Or.inr ⟨tempUser, uname, p, c, rfl, ?_⟩
              rw [← hl1]
              cases ou1 with
              | none => simp [CoreCtrl.updateUserId, hf, hbu, hue, himg, hsvc]
              | some uu => simp [CoreCtrl.updateUserId, hf, hbu, hue, himg, hsvc]

theorem coreUpdate_frame (l : Store) (uid : String) (body : UpdBody)
    (files : ReqFiles) (env : ImgEnv) (a : String) (u u' : UserRec)
    (hfu : findById l a = some u)
    (hfu' : findById (CoreCtrl.updateUserId l (some uid) body files env).2 a
      = some u') :
    u'.profile_image = u.profile_image ∧ u'.cover_image = u.cover_image ∧
    u'.email = u.email ∧ u'.password = u.password ∧
    u'.followers = u.followers ∧ u'.following = u.following ∧
    u'.connections = u.connections ∧
    (body.bio = none → u'.bio = u.bio) ∧
    (body.location = none → u'.location = u.location) ∧
    (body.full_name = none → u'.full_name = u.full_name) ∧
    (body.username = none → u'.username = u.username) := by
  rcases updateUserId_store_shapes l uid body files env with
    hs | ⟨tempUser, uname, p, c, hbu, hs⟩
  · rw [hs, hfu] at hfu'
    obtain rfl := Option.some.inj hfu'
    exact ⟨rfl, rfl, rfl, rfl, rfl, rfl, rfl,
      fun _ => rfl, fun _ => rfl, fun _ => rfl, fun _ => rfl⟩
  · rw [hs, findById_updateById l tempUser.id
      (applyCoreUpdate (CoreCtrl.finalUpdateData l tempUser body uname p c))
      (fun v => rfl) a, hfu] at hfu'
    simp only [Option.map_some'] at hfu'
    have he := Option.some.inj hfu'
    by_cases h : (u.id == tempUser.id) = true
    · rw [if_pos h] at he
      rw [← he]
      refine ⟨rfl, rfl, rfl, rfl, rfl, rfl, rfl, ?_, ?_, ?_, ?_⟩
      · intro hb
        simp [applyCoreUpdate, CoreCtrl.finalUpdateData, hb]
      · intro hb
        simp [applyCoreUpdate, CoreCtrl.finalUpdateData, hb]
      · intro hb
        simp [applyCoreUpdate, CoreCtrl.finalUpdateData, hb]
      · intro hb
        rw [hb] at hbu
        cases hbu
    · rw [if_neg h] at he
      rw [← he]
      exact ⟨rfl, rfl, rfl, rfl, rfl, rfl, rfl,
        fun _ => rfl, fun _ => rfl, fun _ => rfl, fun _ => rfl⟩

theorem modUpdate_frame (env : CloudEnv) (l : Store) (id : String)
    (body : ModBody) (a : String) (u u' : UserRec)
    (hp : body.profile = none) (hpi : body.profile_image = none)
    (hc : body.cover = none) (hci : body.cover_image = none)
    (hfu : findById l a = some u)
    (hfu' : findById (ModCtrl.updateUser env l id body).2.1 a = some u') :
    u'.profile_image = u.profile_image ∧ u'.cover_image = u.cover_image ∧
    u'.email = u.email ∧ u'.password = u.password ∧
    u'.followers = u.followers ∧ u'.following = u.following ∧
    u'.connections = u.connections ∧
    (body.rest.bio = none → u'.bio = u.bio) ∧
    (body.rest.location = none → u'.location = u.location) ∧
    (body.rest.full_name = none → u'.full_name = u.full_name) ∧
    (body.rest.username = none → u'.username = u.username) := by
  have hincp : body.profile.or body.profile_image = none := by rw [hp, hpi]; rfl
  have hincc : body.cover.or body.cover_image = none := by rw [hc, hci]; rfl
  have hshape : (ModCtrl.updateUser env l id body).2.1 = l ∨
      (ModCtrl.updateUser env l id body).2.1
        = updateById l id (applyModUpdate (ModCtrl.modFinalUpdates body none none)) := by
    cases hget : ModSvc.getUserById l id with
    | error e => exact Or.inl (by simp [ModCtrl.updateUser, hget])
    | ok o =>
      cases o with
      | none => exact Or.inl (by simp [ModCtrl.updateUser, hget])
      | some ex =>
        have hsp : ModCtrl.slotUpdate env "profiles"
            (body.profile.or body.profile_image) ex.profile_image
            = (.ok none, []) := by rw [hincp]; rfl
        have hsc : ModCtrl.slotUpdate env "covers"
            (body.cover.or body.cover_image) ex.cover_image
            = (.ok none, []) := by rw [hincc]; rfl
        cases hupd : modSvcUpdateUser l id (ModCtrl.modFinalUpdates body none none) with
        | error e =>
          exact Or.inl (by simp [ModCtrl.updateUser, hget, hsp, hsc, hupd])
        | ok r =>
          obtain ⟨ou, l1⟩ := r
          have hl1 : l1 = updateById l id
              (applyModUpdate (ModCtrl.modFinalUpdates body none none)) := by
            unfold modSvcUpdateUser at hupd
            by_cases hv : isValidObjectId id = true
            · rw [if_pos hv] at hupd
              exact ((Prod.mk.injEq _ _ _ _).mp (Except.ok.inj hupd)).2.symm
            · rw [if_neg hv] at hupd
              cases hupd
          refine Or.inr ?_
          rw [← hl1]
          cases ou with
          | none => simp [ModCtrl.updateUser, hget, hsp, hsc, hupd]
          | some uu => simp [ModCtrl.updateUser, hget, hsp, hsc, hupd]
  rcases hshape with hs | hs
  · rw [hs, hfu] at hfu'
    obtain rfl := Option.some.inj hfu'
    exact ⟨rfl, rfl, rfl, rfl, rfl, rfl, rfl,
      fun _ => rfl, fun _ => rfl, fun _ => rfl, fun _ => rfl⟩
  · rw [hs, findById_updateById l id
      (applyModUpdate (ModCtrl.modFinalUpdates body none none))
      (fun v => rfl) a, hfu] at hfu'
    simp only [Option.map_some'] at hfu'
    have he := Option.some.inj hfu'
    by_cases h : (u.id == id) = true
    · rw [if_pos h] at he
      rw [← he]
      refine ⟨rfl, rfl, rfl, rfl, rfl, rfl, rfl, ?_, ?_, ?_, ?_⟩
      · intro hb
        simp [applyModUpdate, ModCtrl.modFinalUpdates, hb]
      · intro hb
        simp [applyModUpdate, ModCtrl.modFinalUpdates, hb]
      · intro hb
        simp [applyModUpdate, ModCtrl.modFinalUpdates, hb]
      · intro hb
        simp [applyModUpdate, ModCtrl.modFinalUpdates, hb]
    · rw [if_neg h] at he
      rw [← he]
      exact ⟨rfl, rfl, rfl, rfl, rfl, rfl, rfl,
        fun _ => rfl, fun _ => rfl, fun _ => rfl, fun _ => rfl⟩

/-- C9: both profile-update variants apply only the fields present in
the input: every field that the input does not carry — and, in the core
variant, the image URL fields always, since its `profile`/`cover` keys
are not schema paths — is unchanged on the stored record; in particular
an update without image inputs leaves both image URLs untouched. -/
theorem claim_C9 :
    (∀ (l : Store) (uid : String) (body : UpdBody) (files : ReqFiles)
       (env : ImgEnv) (a : String) (u u' : UserRec),
      findById l a = some u →
      findById (CoreCtrl.updateUserId l (some uid) body files env).2 a
        = some u' →
      u'.profile_image = u.profile_image ∧ u'.cover_image = u.cover_image ∧
      u'.email = u.email ∧ u'.password = u.password ∧
      u'.followers = u.followers ∧ u'.following = u.following ∧
      u'.connections = u.connections ∧
      (body.bio = none → u'.bio = u.bio) ∧
      (body.location = none → u'.location = u.location) ∧
      (body.full_name = none → u'.full_name = u.full_name) ∧
      (body.username = none → u'.username = u.username)) ∧
    (∀ (env : CloudEnv) (l : Store) (id : String) (body : ModBody)
       (a : String) (u u' : UserRec),
      body.profile = none → body.profile_image = none →
      body.cover = none → body.cover_image = none →
      findById l a = some u →
      findById (ModCtrl.updateUser env l id body).2.1 a = some u' →
      u'.profile_image = u.profile_image ∧ u'.cover_image = u.cover_image ∧
      u'.email = u.email ∧ u'.password = u.password ∧
      u'.followers = u.followers ∧ u'.following = u.following ∧
      u'.connections = u.connections ∧
      (body.rest.bio = none → u'.bio = u.bio) ∧
      (body.rest.location = none → u'.location = u.location) ∧
      (body.rest.full_name = none → u'.full_name = u.full_name) ∧
      (body.rest.username = none → u'.username = u.username)) :=
  ⟨fun l uid body files env a u u' h1 h2 =>
     coreUpdate_frame l uid body files env a u u' h1 h2,
   fun env l id body a u u' hp hpi hc hci h1 h2 =>
     modUpdate_frame env l id body a u u' hp hpi hc hci h1 h2⟩

def selfUserUpd : UserRec := { selfUser with username := some "zz", bio := "nb" }

def modSelfUpd : UserRec := { selfUser with bio := "nb2" }

theorem claim_C9_witness :
    (selfUserUpd.profile_image = selfUser.profile_image ∧
     selfUserUpd.cover_image = selfUser.cover_image ∧
     selfUserUpd.email = selfUser.email ∧
     selfUserUpd.password = selfUser.password ∧
     selfUserUpd.followers = selfUser.followers ∧
     selfUserUpd.following = selfUser.following ∧
     selfUserUpd.connections = selfUser.connections ∧
     ((some "nb" : Option String) = none → selfUserUpd.bio = selfUser.bio) ∧
     ((none : Option String) = none →
       selfUserUpd.location = selfUser.location) ∧
     ((none : Option String) = none →
       selfUserUpd.full_name = selfUser.full_name) ∧
     ((some "zz" : Option String) = none →
       selfUserUpd.username = selfUser.username)) ∧
    (modSelfUpd.profile_image = selfUser.profile_image ∧
     modSelfUpd.cover_image = selfUser.cover_image ∧
     modSelfUpd.email = selfUser.email ∧
     modSelfUpd.password = selfUser.password ∧
     modSelfUpd.followers = selfUser.followers ∧
     modSelfUpd.following = selfUser.following ∧
     modSelfUpd.connections = selfUser.connections ∧
     ((some "nb2" : Option String) = none → modSelfUpd.bio = selfUser.bio) ∧
     ((none : Option String) = none →
       modSelfUpd.location = selfUser.location) ∧
     ((none : Option String) = none →
       modSelfUpd.full_name = selfUser.full_name) ∧
     ((none : Option String) = none →
       modSelfUpd.username = selfUser.username)) :=
  ⟨claim_C9.1 [selfUser] selfId ⟨some "zz", some "nb", none, none⟩ {}
     ⟨.ok "p", .ok "c"⟩ selfId selfUser selfUserUpd rfl rfl,
   claim_C9.2 envDelFail [selfUser] selfId
     ⟨none, none, none, none, ⟨none, some "nb2", none, none⟩⟩ selfId selfUser
     modSelfUpd rfl rfl rfl rfl rfl rfl⟩
